import Mathlib

/-!
Verification of the healthcare-ledger backend: shallow embedding of the
audit-log service, the tiered mempool, the context engine's sensitivity
scoring and the wallet challenge/verify service, with theorems about the
hash-chain invariant, integrity-hash serialization, corrupt-tail reload,
persist-failure behaviour, tier capacity/ordering/eviction, sensitivity
scoring, query pagination, nonce consumption and CSV export.

Machine arithmetic is `Nat` with explicit `% 2^32`; priorities and scores
(`number` in the source) are `ℚ`; absent (`undefined`) values are `Option`;
fallible operations return `Except`.
-/

/-! ## SHA-256 over byte lists, words as `Nat` reduced mod `2^32`.

Models `createHash("sha256").update(value).digest("hex")`, the platform
primitive behind `sha256` in `src/utils/crypto`. -/

namespace Sha256

/-- Model of `2^32`, the word modulus. -/
def M32 : Nat := 4294967296

/-- Right-rotation of a 32-bit word. -/
def rotr (n x : Nat) : Nat := ((x >>> n) ||| (x <<< (32 - n))) % M32

/-- Bitwise complement of a 32-bit word. -/
def wnot (x : Nat) : Nat := Nat.xor x 4294967295

/-- Model of `Ch(x,y,z)`. -/
def ch (x y z : Nat) : Nat := Nat.xor (Nat.land x y) (Nat.land (wnot x) z)

/-- Model of `Maj(x,y,z)`. -/
def maj (x y z : Nat) : Nat :=
  Nat.xor (Nat.xor (Nat.land x y) (Nat.land x z)) (Nat.land y z)

/-- Model of `Σ₀`. -/
def bsig0 (x : Nat) : Nat := Nat.xor (Nat.xor (rotr 2 x) (rotr 13 x)) (rotr 22 x)

/-- Model of `Σ₁`. -/
def bsig1 (x : Nat) : Nat := Nat.xor (Nat.xor (rotr 6 x) (rotr 11 x)) (rotr 25 x)

/-- Model of `σ₀`. -/
def ssig0 (x : Nat) : Nat := Nat.xor (Nat.xor (rotr 7 x) (rotr 18 x)) (x >>> 3)

/-- Model of `σ₁`. -/
def ssig1 (x : Nat) : Nat := Nat.xor (Nat.xor (rotr 17 x) (rotr 19 x)) (x >>> 10)

/-- The 64 round constants. -/
def K : List Nat :=
  [1116352408, 1899447441, 3049323471, 3921009573, 961987163,
   1508970993, 2453635748, 2870763221, 3624381080, 310598401,
   607225278, 1426881987, 1925078388, 2162078206, 2614888103,
   3248222580, 3835390401, 4022224774, 264347078, 604807628,
   770255983, 1249150122, 1555081692, 1996064986, 2554220882,
   2821834349, 2952996808, 3210313671, 3336571891, 3584528711,
   113926993, 338241895, 666307205, 773529912, 1294757372,
   1396182291, 1695183700, 1986661051, 2177026350, 2456956037,
   2730485921, 2820302411, 3259730800, 3345764771, 3516065817,
   3600352804, 4094571909, 275423344, 430227734, 506948616,
   659060556, 883997877, 958139571, 1322822218, 1537002063,
   1747873779, 1955562222, 2024104815, 2227730452, 2361852424,
   2428436474, 2756734187, 3204031479, 3329325298]

/-- Initial hash state `H₀…H₇`. -/
def H0 : List Nat :=
  [1779033703, 3144134277, 1013904242, 2773480762,
   1359893119, 2600822924, 528734635, 1541459225]

/-- Big-endian 8-byte encoding of a length (in bits). -/
def be64 (n : Nat) : List Nat :=
  [(n >>> 56) % 256, (n >>> 48) % 256, (n >>> 40) % 256, (n >>> 32) % 256,
   (n >>> 24) % 256, (n >>> 16) % 256, (n >>> 8) % 256, n % 256]

/-- FIPS 180-4 §5.1.1 padding: append `0x80`, zeros, then the 64-bit bit length. -/
def padBytes (msg : List Nat) : List Nat :=
  let len := msg.length
  msg ++ 128 :: List.replicate ((64 - (len + 9) % 64) % 64) 0 ++ be64 (8 * len)

/-- Group bytes into big-endian 32-bit words. -/
def toWords : List Nat → List Nat
  | a :: b :: c :: d :: rest => (((a * 256 + b) * 256 + c) * 256 + d) :: toWords rest
  | _ => []

/-- Group a word list into 16-word blocks (the padded input is an exact multiple). -/
def toBlocks : List Nat → List (List Nat)
  | w0 :: w1 :: w2 :: w3 :: w4 :: w5 :: w6 :: w7 ::
    w8 :: w9 :: w10 :: w11 :: w12 :: w13 :: w14 :: w15 :: rest =>
      [w0, w1, w2, w3, w4, w5, w6, w7, w8, w9, w10, w11, w12, w13, w14, w15] :: toBlocks rest
  | _ => []

/-- Message-schedule extension; `rev` holds the schedule so far, most recent word first. -/
def sched : List Nat → Nat → List Nat
  | rev, 0 => rev
  | rev, n + 1 =>
      sched ((ssig1 (rev.getD 1 0) + rev.getD 6 0 + ssig0 (rev.getD 14 0) + rev.getD 15 0) % M32
        :: rev) n

/-- The 64-word message schedule of one block. -/
def schedule (block : List Nat) : List Nat := (sched block.reverse 48).reverse

/-- The 64 compression rounds, driven by the zipped (constant, schedule-word) list. -/
def rounds : List (Nat × Nat) → Nat × Nat × Nat × Nat × Nat × Nat × Nat × Nat →
    Nat × Nat × Nat × Nat × Nat × Nat × Nat × Nat
  | [], st => st
  | (kt, wt) :: rest, (a, b, c, d, e, f, g, h) =>
      let t1 := (h + bsig1 e + ch e f g + kt + wt) % M32
      let t2 := (bsig0 a + maj a b c) % M32
      rounds rest ((t1 + t2) % M32, a, b, c, (d + t1) % M32, e, f, g)

/-- Compress one 16-word block into the running 8-word state. -/
def compressBlock (st block : List Nat) : List Nat :=
  match rounds (K.zip (schedule block))
      (st.getD 0 0, st.getD 1 0, st.getD 2 0, st.getD 3 0,
       st.getD 4 0, st.getD 5 0, st.getD 6 0, st.getD 7 0) with
  | (a, b, c, d, e, f, g, h) =>
      [(st.getD 0 0 + a) % M32, (st.getD 1 0 + b) % M32, (st.getD 2 0 + c) % M32,
       (st.getD 3 0 + d) % M32, (st.getD 4 0 + e) % M32, (st.getD 5 0 + f) % M32,
       (st.getD 6 0 + g) % M32, (st.getD 7 0 + h) % M32]

/-- Lowercase hex digit (for digest values, always in range 0..15). -/
def hexDigit (n : Nat) : Char := Nat.digitChar n

/-- Eight lowercase hex digits of one 32-bit word. -/
def hex8 (w : Nat) : List Char :=
  [hexDigit ((w >>> 28) % 16), hexDigit ((w >>> 24) % 16), hexDigit ((w >>> 20) % 16),
   hexDigit ((w >>> 16) % 16), hexDigit ((w >>> 12) % 16), hexDigit ((w >>> 8) % 16),
   hexDigit ((w >>> 4) % 16), hexDigit (w % 16)]

/-- UTF-8 bytes of one character. -/
def utf8Char (c : Char) : List Nat :=
  let n := c.toNat
  if n < 128 then [n]
  else if n < 2048 then [192 + n / 64, 128 + n % 64]
  else if n < 65536 then [224 + n / 4096, 128 + (n / 64) % 64, 128 + n % 64]
  else [240 + n / 262144, 128 + (n / 4096) % 64, 128 + (n / 64) % 64, 128 + n % 64]

/-- UTF-8 byte sequence of a string. -/
def utf8Bytes (s : String) : List Nat := s.data.flatMap utf8Char

/-- SHA-256 digest of a byte list, as the 8-word state. -/
def digestWords (msg : List Nat) : List Nat :=
  ((toBlocks (toWords (padBytes msg))).foldl compressBlock H0)

/-- SHA-256 of a string (UTF-8 input), as the usual 64-character lowercase hex string.
Models `createHash("sha256").update(value).digest("hex")` from `src/utils/crypto`. -/
def sha256 (value : String) : String :=
  String.mk ((digestWords (utf8Bytes value)).flatMap hex8)

end Sha256

/-! ## JSON values and a model of JavaScript `JSON.stringify`.

`Jval` is the tagged union of §9's "Dynamic payloads": scalar | list | map.
Numbers are restricted to integers (every number the backend serializes —
sequences, tiers — is integral). -/

/-- A JSON value, as stored in `payload` / `metadata` maps. -/
inductive Jval where
  | jnull
  | jbool (b : Bool)
  | jint (n : Int)
  | jstr (s : String)
  | jarr (elems : List Jval)
  | jobj (fields : List (String × Jval))

/-- JSON escaping of one character, as `JSON.stringify` performs it. -/
def jsonEscapeChar (c : Char) : List Char :=
  if c = '"' then ['\\', '"']
  else if c = '\\' then ['\\', '\\']
  else if c = Char.ofNat 10 then ['\\', 'n']
  else if c = Char.ofNat 13 then ['\\', 'r']
  else if c = Char.ofNat 9 then ['\\', 't']
  else if c = Char.ofNat 8 then ['\\', 'b']
  else if c = Char.ofNat 12 then ['\\', 'f']
  else if c.toNat < 32 then
    ['\\', 'u', '0', '0', Sha256.hexDigit (c.toNat / 16), Sha256.hexDigit (c.toNat % 16)]
  else [c]

/-- A JSON string literal: quoted and escaped. -/
def jsonQuote (s : String) : String :=
  "\"" ++ String.mk (s.data.flatMap jsonEscapeChar) ++ "\""

mutual

/-- Model of `JSON.stringify` of a defined JSON value. -/
def stringifyJval : Jval → String
  | .jnull => "null"
  | .jbool b => if b then "true" else "false"
  | .jint n => toString n
  | .jstr s => jsonQuote s
  | .jarr elems => "[" ++ stringifyArr elems ++ "]"
  | .jobj fields => "\x7b" ++ stringifyObj fields ++ "\x7d"

/-- Comma-joined serialization of array elements. -/
def stringifyArr : List Jval → String
  | [] => ""
  | [v] => stringifyJval v
  | v :: rest => stringifyJval v ++ "," ++ stringifyArr rest

/-- Comma-joined serialization of object fields, in insertion order. -/
def stringifyObj : List (String × Jval) → String
  | [] => ""
  | [(k, v)] => jsonQuote k ++ ":" ++ stringifyJval v
  | (k, v) :: rest => jsonQuote k ++ ":" ++ stringifyJval v ++ "," ++ stringifyObj rest

end

/-! ## Audit log service

Shallow embedding of `AuditLogService`. The durable newline-delimited log
file is a `List AuditLogEntry` (entries in append order); the in-memory
read cache only mirrors the file and is not modeled. `rotateIfNeeded` and
`enforceRetention` are modeled in the configuration `AUDIT_LOG_MAX_BYTES = 0`
and `AUDIT_RETENTION_DAYS = 0`, under which both return immediately. -/

namespace AuditLog

/-- A stored audit entry, as written to the ledger file. Optional fields are
`undefined`-able properties of the TypeScript interface. -/
structure AuditLogEntry where
  id : String
  sequence : Nat
  timestamp : String
  action : String
  actorId : String
  actorType : String
  resource : String
  outcome : String
  patientId : Option String
  ipAddress : Option String
  blockHash : Option String
  details : Option String
  metadata : Option (List (String × Jval))
  tags : Option (List String)
  channel : Option String
  prevHash : String
  integrityHash : String

/-- The default entry, used only as the out-of-range value of `List.getD`. -/
def defaultEntry : AuditLogEntry :=
  { id := "", sequence := 0, timestamp := "", action := "", actorId := "", actorType := "",
    resource := "", outcome := "", patientId := none, ipAddress := none, blockHash := none,
    details := none, metadata := none, tags := none, channel := none,
    prevHash := "", integrityHash := "" }

instance : Inhabited AuditLogEntry := ⟨defaultEntry⟩

/-- Model of `AuditLogRecordInput`: the caller-supplied record input. -/
structure AuditLogRecordInput where
  id : Option String
  timestamp : Option String
  action : String
  actorId : String
  actorType : String
  resource : String
  outcome : String
  patientId : Option String
  ipAddress : Option String
  blockHash : Option String
  details : Option String
  metadata : Option (List (String × Jval))
  tags : Option (List String)
  channel : Option String

/-- The `basePayload` object assembled by `record` (everything of an entry but
`id`, `prevHash` and `integrityHash`), with its TypeScript property order. -/
structure BasePayload where
  sequence : Nat
  timestamp : String
  action : String
  actorId : String
  actorType : String
  resource : String
  outcome : String
  patientId : Option String
  ipAddress : Option String
  blockHash : Option String
  details : Option String
  metadata : Option (List (String × Jval))
  tags : List String
  channel : String

/-- One serialized `"key":value` member, or nothing for an `undefined` value
(`JSON.stringify` elides properties whose value is `undefined`). -/
def optMember (key : String) : Option String → List String
  | none => []
  | some v => [jsonQuote key ++ ":" ++ jsonQuote v]

/-- Model of `JSON.stringify({ prevHash, ...basePayload })`: members in property
insertion order — `prevHash` first, then the `basePayload` declaration order —
with `undefined`-valued optional members elided. -/
def serializeHashInput (prevHash : String) (p : BasePayload) : String :=
  "\x7b" ++ String.intercalate ","
    ([jsonQuote "prevHash" ++ ":" ++ jsonQuote prevHash,
      jsonQuote "sequence" ++ ":" ++ toString p.sequence,
      jsonQuote "timestamp" ++ ":" ++ jsonQuote p.timestamp,
      jsonQuote "action" ++ ":" ++ jsonQuote p.action,
      jsonQuote "actorId" ++ ":" ++ jsonQuote p.actorId,
      jsonQuote "actorType" ++ ":" ++ jsonQuote p.actorType,
      jsonQuote "resource" ++ ":" ++ jsonQuote p.resource,
      jsonQuote "outcome" ++ ":" ++ jsonQuote p.outcome]
     ++ optMember "patientId" p.patientId
     ++ optMember "ipAddress" p.ipAddress
     ++ optMember "blockHash" p.blockHash
     ++ optMember "details" p.details
     ++ (match p.metadata with
         | none => []
         | some m => [jsonQuote "metadata" ++ ":" ++ stringifyJval (Jval.jobj m)])
     ++ [jsonQuote "tags" ++ ":" ++ stringifyJval (Jval.jarr (p.tags.map Jval.jstr)),
         jsonQuote "channel" ++ ":" ++ jsonQuote p.channel]) ++ "\x7d"

/-- Model of `computeIntegrityHash`: SHA-256 of the stringified `{ prevHash, ...payload }`,
where `prevHash` is the service's `lastIntegrityHash` at call time. -/
def computeIntegrityHash (lastIntegrityHash : String) (payload : BasePayload) : String :=
  Sha256.sha256 (serializeHashInput lastIntegrityHash payload)

/-- The service's chain state plus the durable ledger file. -/
structure AuditState where
  nextSequence : Nat
  lastIntegrityHash : String
  log : List AuditLogEntry

/-- The state of a freshly constructed service over an empty ledger file. -/
def initialAuditState : AuditState :=
  { nextSequence := 1, lastIntegrityHash := "AUDIT_ROOT", log := [] }

/-- Model of `validateInput`: the required fields, in check order; a missing (falsy,
i.e. empty) field throws. -/
def validateInput (input : AuditLogRecordInput) : Except String Unit :=
  if input.action = "" then .error "AuditLogService.record missing required field: action"
  else if input.actorId = "" then .error "AuditLogService.record missing required field: actorId"
  else if input.actorType = "" then .error "AuditLogService.record missing required field: actorType"
  else if input.resource = "" then .error "AuditLogService.record missing required field: resource"
  else if input.outcome = "" then .error "AuditLogService.record missing required field: outcome"
  else .ok ()

/-- Model of `record`: validate, assign the next sequence, build `basePayload`, hash it
against `lastIntegrityHash`, append durably, advance the chain state. `nowIso`
models `new Date().toISOString()` and `uuid` models `randomUUID()`. -/
def record (s : AuditState) (input : AuditLogRecordInput) (nowIso uuid : String) :
    Except String (AuditState × AuditLogEntry) :=
  match validateInput input with
  | .error e => .error e
  | .ok _ =>
    let timestamp := input.timestamp.getD nowIso
    let sequence := s.nextSequence
    let basePayload : BasePayload :=
      { sequence := sequence, timestamp := timestamp, action := input.action,
        actorId := input.actorId, actorType := input.actorType, resource := input.resource,
        outcome := input.outcome, patientId := input.patientId, ipAddress := input.ipAddress,
        blockHash := input.blockHash, details := input.details, metadata := input.metadata,
        tags := input.tags.getD [], channel := input.channel.getD "system" }
    let entry : AuditLogEntry :=
      { id := input.id.getD ("aud-" ++ toString sequence ++ "-" ++ uuid),
        sequence := basePayload.sequence, timestamp := basePayload.timestamp,
        action := basePayload.action, actorId := basePayload.actorId,
        actorType := basePayload.actorType, resource := basePayload.resource,
        outcome := basePayload.outcome, patientId := basePayload.patientId,
        ipAddress := basePayload.ipAddress, blockHash := basePayload.blockHash,
        details := basePayload.details, metadata := basePayload.metadata,
        tags := some basePayload.tags, channel := some basePayload.channel,
        prevHash := s.lastIntegrityHash,
        integrityHash := computeIntegrityHash s.lastIntegrityHash basePayload }
    .ok ({ nextSequence := sequence + 1, lastIntegrityHash := entry.integrityHash,
           log := s.log ++ [entry] }, entry)

/-- A sequence of `record` calls: each element is (input, now, uuid); a call
that throws leaves the state unchanged. -/
def runRecords (s : AuditState) (calls : List (AuditLogRecordInput × String × String)) :
    AuditState :=
  calls.foldl (fun st c =>
    match record st c.1 c.2.1 c.2.2 with
    | .ok (st', _) => st'
    | .error _ => st) s

end AuditLog

namespace AuditLog

/-! ### Startup reload (`bootstrapStateFromFile`) -/

/-- One non-blank line of the ledger file: either `JSON.parse` yields an audit
entry, or `JSON.parse` throws on it. -/
inductive AuditFileLine where
  | ok (entry : AuditLogEntry)
  | bad (raw : String)

/-- Model of `lines.map(line => JSON.parse(line))`: all entries, or `none` as soon as
any line throws. -/
def parseAll : List AuditFileLine → Option (List AuditLogEntry)
  | [] => some []
  | .ok e :: rest => (parseAll rest).map (e :: ·)
  | .bad _ :: _ => none

/-- Stable insertion keeping each existing element `y` ahead of the newcomer
`x` exactly when `keepBefore y x`; `foldl` over it below models ECMAScript's
stable `Array.prototype.sort` for the comparators this backend uses. -/
def insertB (keepBefore : α → α → Bool) (x : α) : List α → List α
  | [] => [x]
  | y :: ys => if keepBefore y x then y :: insertB keepBefore x ys else x :: y :: ys

/-- Stable sort under the `keepBefore` comparator discipline. -/
def stableSort (keepBefore : α → α → Bool) (l : List α) : List α :=
  l.foldl (fun acc y => insertB keepBefore y acc) []

/-- Comparator of `entries.sort((a, b) => a.sequence - b.sequence)`. -/
def seqAsc (a b : AuditLogEntry) : Bool := decide (a.sequence ≤ b.sequence)

/-- Comparator of `entries.sort((a, b) => b.sequence - a.sequence)`. -/
def seqDesc (a b : AuditLogEntry) : Bool := decide (b.sequence ≤ a.sequence)

/-- The in-memory chain tail rebuilt at startup. -/
structure BootState where
  nextSequence : Nat
  lastIntegrityHash : String

/-- Model of `bootstrapStateFromFile`, acting on the chain tail and the ledger file:
an empty file returns unchanged; a fully parsed file rebuilds the tail from
the highest-sequence entry; a file with any unparseable line hits the catch
branch, which truncates the ledger file to empty and resets the tail. -/
def bootstrapStateFromFile (s : BootState) (file : List AuditFileLine) :
    BootState × List AuditFileLine :=
  if file.isEmpty then (s, file)
  else
    match parseAll file with
    | some entries =>
      let sorted := stableSort seqAsc entries
      let last := sorted.getLastD defaultEntry
      ({ nextSequence := last.sequence + 1, lastIntegrityHash := last.integrityHash }, file)
    | none =>
      ({ nextSequence := 1, lastIntegrityHash := "AUDIT_ROOT" }, [])

/-! ### Query (`applyFilters`, `sortEntries`, `resolveCursorIndex`, `query`) -/

/-- ASCII lowering of one character (models `toLowerCase` on the ASCII
alphabet this backend compares). -/
def lowerChar (c : Char) : Char :=
  if 65 ≤ c.toNat ∧ c.toNat ≤ 90 then Char.ofNat (c.toNat + 32) else c

/-- ASCII `toLowerCase`. -/
def lowerStr (s : String) : String := String.mk (s.data.map lowerChar)

/-- Case-insensitive-lowering substring scan over character lists. -/
def prefixB : List Char → List Char → Bool
  | [], _ => true
  | n :: ns, hay =>
    match hay with
    | h :: hs => n == h && prefixB ns hs
    | [] => false

/-- Model of `hay.includes(needle)` over character lists. -/
def subScan (needle : List Char) : List Char → Bool
  | [] => needle.isEmpty
  | c :: rest => prefixB needle (c :: rest) || subScan needle rest

/-- Model of `hay.includes(needle)`. -/
def containsStr (hay needle : String) : Bool := subScan needle.data hay.data

/-- Model of `AuditLogFilters` (the `from`/`to` range bounds are named `fromTs`/`toTs`
because `from` is reserved in Lean). -/
structure AuditLogFilters where
  actorId : Option String
  actorType : Option String
  patientId : Option String
  resource : Option String
  action : Option String
  outcome : Option String
  fromTs : Option String
  toTs : Option String
  search : Option String
  tags : Option (List String)

/-- The all-absent filter set. -/
def noFilters : AuditLogFilters :=
  { actorId := none, actorType := none, patientId := none, resource := none,
    action := none, outcome := none, fromTs := none, toTs := none,
    search := none, tags := none }

/-- Model of `direction` values. -/
inductive Direction where
  | asc
  | desc
deriving DecidableEq

/-- Model of `AuditLogQueryOptions`. `cursor` models `Number(cursor)` folded to its
observable outcomes: `none` covers an absent, empty or non-finite cursor
(all of which resolve to index 0). -/
structure AuditLogQueryOptions where
  filters : Option AuditLogFilters
  limit : Option Nat
  cursor : Option Int
  direction : Option Direction

/-- The no-options query. -/
def defaultQueryOptions : AuditLogQueryOptions :=
  { filters := none, limit := none, cursor := none, direction := none }

/-- Model of `AuditLogQueryResult`. -/
structure AuditLogQueryResult where
  entries : List AuditLogEntry
  totalMatches : Nat
  nextCursor : Option String
  previousCursor : Option String
  hasMore : Bool

/-- An exact-match filter over a required entry field: excludes the entry when
the filter is truthy (present and non-empty) and differs from the value. -/
def exactFilterHit (filter : Option String) (value : String) : Bool :=
  match filter with
  | some f => decide (f ≠ "") && decide (value ≠ f)
  | none => false

/-- An exact-match filter over an optional entry field (an absent field never
equals a truthy filter). -/
def exactFilterHitOpt (filter : Option String) (value : Option String) : Bool :=
  match filter with
  | some f => decide (f ≠ "") && decide (value ≠ some f)
  | none => false

/-- The resolved `fromTime`/`toTime` bound: active only when the filter string
is present and `Date.parse` of it is truthy (neither `NaN` — modeled `none` —
nor `0`). `parseDate` is the `Date.parse` oracle. -/
def activeBound (parseDate : String → Option Int) : Option String → Option Int
  | none => none
  | some s =>
    match parseDate s with
    | none => none
    | some t => if t = 0 then none else some t

/-- Model of `Date.parse(entry.timestamp) < fromTime` (false when the entry timestamp
parses to `NaN`). -/
def beforeBound (parseDate : String → Option Int) (timestamp : String) (bound : Int) : Bool :=
  match parseDate timestamp with
  | some t => decide (t < bound)
  | none => false

/-- Model of `Date.parse(entry.timestamp) > toTime` (false on `NaN`). -/
def afterBound (parseDate : String → Option Int) (timestamp : String) (bound : Int) : Bool :=
  match parseDate timestamp with
  | some t => decide (t > bound)
  | none => false

/-- The searchable haystack: `[details, serialized metadata, actorId, resource,
blockHash, patientId].filter(Boolean).join(" ").toLowerCase()`. -/
def searchHaystack (entry : AuditLogEntry) : String :=
  lowerStr (String.intercalate " "
    (([entry.details,
       (match entry.metadata with
        | some m => some (stringifyJval (Jval.jobj m))
        | none => some ""),
       some entry.actorId, some entry.resource, entry.blockHash,
       entry.patientId].filterMap id).filter (· ≠ "")))

/-- The per-entry predicate of `applyFilters`. -/
def entryMatches (parseDate : String → Option Int) (filters : AuditLogFilters)
    (entry : AuditLogEntry) : Bool :=
  !(exactFilterHit filters.actorId entry.actorId) &&
  !(exactFilterHit filters.actorType entry.actorType) &&
  !(exactFilterHitOpt filters.patientId entry.patientId) &&
  !(exactFilterHit filters.resource entry.resource) &&
  !(exactFilterHit filters.action entry.action) &&
  !(exactFilterHit filters.outcome entry.outcome) &&
  (match activeBound parseDate filters.fromTs with
   | some bound => !(beforeBound parseDate entry.timestamp bound)
   | none => true) &&
  (match activeBound parseDate filters.toTs with
   | some bound => !(afterBound parseDate entry.timestamp bound)
   | none => true) &&
  (match filters.tags with
   | some tags =>
     if tags.isEmpty then true
     else !(tags.any (fun tag => !((entry.tags.getD []).contains tag)))
   | none => true) &&
  (match filters.search with
   | some needle =>
     if needle = "" then true
     else containsStr (searchHaystack entry) (lowerStr needle)
   | none => true)

/-- Model of `applyFilters`: identity without filters, logical-AND filtering otherwise. -/
def applyFilters (parseDate : String → Option Int) (entries : List AuditLogEntry) :
    Option AuditLogFilters → List AuditLogEntry
  | none => entries
  | some filters => entries.filter (entryMatches parseDate filters)

/-- Model of `sortEntries`: sort descending by sequence, reversed for `asc`. -/
def sortEntries (entries : List AuditLogEntry) (direction : Direction) : List AuditLogEntry :=
  let sorted := stableSort seqDesc entries
  if direction = .asc then sorted.reverse else sorted

/-- Model of `resolveCursorIndex`: the window starts immediately after the entry whose
sequence equals the cursor, at 0 when absent/unparseable/not found. -/
def resolveCursorIndex (entries : List AuditLogEntry) : Option Int → Nat
  | none => 0
  | some sequence =>
    match entries.findIdx? (fun e => (e.sequence : Int) == sequence) with
    | some index => index + 1
    | none => 0

/-- The `filtered` const of `query`: all rows matching the filters (read back
from the ledger file, newest first). -/
def queryFiltered (parseDate : String → Option Int) (log : List AuditLogEntry)
    (options : AuditLogQueryOptions) : List AuditLogEntry :=
  applyFilters parseDate (stableSort seqDesc log) options.filters

/-- The `ordered` const of `query`. -/
def queryOrdered (parseDate : String → Option Int) (log : List AuditLogEntry)
    (options : AuditLogQueryOptions) : List AuditLogEntry :=
  sortEntries (queryFiltered parseDate log options) (options.direction.getD .desc)

/-- The `startIndex` const of `query`. -/
def queryStart (parseDate : String → Option Int) (log : List AuditLogEntry)
    (options : AuditLogQueryOptions) : Nat :=
  resolveCursorIndex (queryOrdered parseDate log options) options.cursor

/-- The `window` const of `query`: `ordered.slice(startIndex, startIndex + limit)`. -/
def queryWindow (parseDate : String → Option Int) (log : List AuditLogEntry)
    (options : AuditLogQueryOptions) : List AuditLogEntry :=
  ((queryOrdered parseDate log options).drop (queryStart parseDate log options)).take
    (options.limit.getD 100)

/-- The `previousCursor` const of `query`. -/
def queryPrevCursor (parseDate : String → Option Int) (log : List AuditLogEntry)
    (options : AuditLogQueryOptions) : Option String :=
  if queryStart parseDate log options > 0 then
    ((queryOrdered parseDate log options).drop (queryStart parseDate log options - 1)).head?.map
      (fun e => toString e.sequence)
  else none

/-- Model of `query`. The `none` result models the `TypeError` thrown when
`window.length === limit` with an empty window (only possible for `limit: 0`),
where the code reads `.sequence` of `undefined`. -/
def query (parseDate : String → Option Int) (log : List AuditLogEntry)
    (options : AuditLogQueryOptions) : Option AuditLogQueryResult :=
  if (queryWindow parseDate log options).length = options.limit.getD 100 then
    match (queryWindow parseDate log options).getLast? with
    | some lastEntry =>
      some { entries := queryWindow parseDate log options,
             totalMatches := (queryFiltered parseDate log options).length,
             nextCursor := some (toString lastEntry.sequence),
             previousCursor := queryPrevCursor parseDate log options, hasMore := true }
    | none => none
  else
    some { entries := queryWindow parseDate log options,
           totalMatches := (queryFiltered parseDate log options).length, nextCursor := none,
           previousCursor := queryPrevCursor parseDate log options, hasMore := false }

end AuditLog

namespace AuditLog

/-! ### CSV export (`exportCsv`, `escapeCsv`) -/

/-- Model of `escapeCsv`: quote a field containing a comma, a double quote or a newline,
doubling embedded quotes. -/
def escapeCsv (value : String) : String :=
  if value.data.contains ',' || value.data.contains '"' || value.data.contains (Char.ofNat 10) then
    "\"" ++ String.mk (value.data.flatMap (fun c => if c = '"' then ['"', '"'] else [c])) ++ "\""
  else value

/-- The fixed CSV header columns, in source order. -/
def csvHeader : List String :=
  ["sequence", "id", "timestamp", "action", "actorId", "actorType", "resource",
   "outcome", "patientId", "ipAddress", "blockHash", "channel", "tags", "details"]

/-- The 14 stringified column values of one entry (`??`-defaulted, tags joined
by `|`), before CSV escaping. -/
def csvFields (entry : AuditLogEntry) : List String :=
  [toString entry.sequence, entry.id, entry.timestamp, entry.action, entry.actorId,
   entry.actorType, entry.resource, entry.outcome, entry.patientId.getD "",
   entry.ipAddress.getD "", entry.blockHash.getD "", entry.channel.getD "",
   String.intercalate "|" (entry.tags.getD []), entry.details.getD ""]

/-- One CSV data row. -/
def csvRow (entry : AuditLogEntry) : String :=
  String.intercalate "," ((csvFields entry).map escapeCsv)

/-- Model of `new Date().toISOString().replace(/[:.]/g, "-")`. -/
def sanitizeTimestamp (nowIso : String) : String :=
  String.mk (nowIso.data.map (fun c => if c = ':' || c = '.' then '-' else c))

/-- What `exportCsv` produces: the CSV payload written to the export file, and
the destination path which is the function's return value. -/
structure CsvExport where
  written : String
  returned : String

/-- Model of `exportCsv`: query (limit defaulted to 1000), render header and rows, write
the payload to a timestamped file under the export directory, and return the
destination path. `none` propagates a `query` throw. -/
def exportCsv (parseDate : String → Option Int) (log : List AuditLogEntry)
    (options : AuditLogQueryOptions) (nowIso exportDir : String) : Option CsvExport :=
  match query parseDate log { options with limit := some (options.limit.getD 1000) } with
  | none => none
  | some result =>
    let filename := "audit-export-" ++ sanitizeTimestamp nowIso ++ ".csv"
    let destination := exportDir ++ "/" ++ filename
    let rows := result.entries.map csvRow
    let csvPayload := String.intercalate "\n" (String.intercalate "," csvHeader :: rows)
    some { written := csvPayload, returned := destination }

/-! ### The specification's canonical serialization (for claim C2)

Modelled from the spec's words, to be compared against the code's
serialization: "SHA-256 of a canonical JSON serialization of {prevHash,
sequence, timestamp, action, actorId, actorType, resource, outcome, patientId,
ipAddress, blockHash, details, metadata, tags, channel}. The serialization
must be stable (sort object keys, elide no fields even when empty)."
Keys are sorted alphabetically and every field is emitted; an absent optional
field is emitted as `null`. -/

/-- A `"key":value` member whose absent value serializes as `null`. -/
def specMember (key : String) : Option String → String
  | none => jsonQuote key ++ ":null"
  | some v => jsonQuote key ++ ":" ++ jsonQuote v

/-- Canonical serialization per the spec's words: the same fifteen fields with
object keys sorted and no field elided. -/
def canonicalSpecSerialization (prevHash : String) (p : BasePayload) : String :=
  "\x7b" ++ String.intercalate ","
    [specMember "action" (some p.action),
     specMember "actorId" (some p.actorId),
     specMember "actorType" (some p.actorType),
     specMember "blockHash" p.blockHash,
     specMember "channel" (some p.channel),
     specMember "details" p.details,
     specMember "ipAddress" p.ipAddress,
     jsonQuote "metadata" ++ ":" ++
       (match p.metadata with
        | none => "null"
        | some m => stringifyJval (Jval.jobj m)),
     specMember "outcome" (some p.outcome),
     specMember "patientId" p.patientId,
     specMember "prevHash" (some prevHash),
     specMember "resource" (some p.resource),
     jsonQuote "sequence" ++ ":" ++ toString p.sequence,
     jsonQuote "tags" ++ ":" ++ stringifyJval (Jval.jarr (p.tags.map Jval.jstr)),
     specMember "timestamp" (some p.timestamp)] ++ "\x7d"

end AuditLog

/-! ## Tiered mempool

Shallow embedding of `Mempool`. Queues live in a `MempoolSnapshot`; `persist`
writes the snapshot durably and its outcome is a `Bool` parameter of the
persisting wrapper. `number`-typed priorities and tiers are `ℚ`. -/

namespace Mempool

/-- Model of `TransactionRecord`. -/
structure TransactionRecord where
  id : String
  type : String
  tier : ℚ
  priority : ℚ
  payload : List (String × Jval)
  signature : String
  createdAt : String

/-- Model of `PriorityBreakdownSnapshot`. -/
structure PriorityBreakdownSnapshot where
  criticality : ℚ
  sensitivity : ℚ
  resources : ℚ
  compliance : ℚ
  priority : ℚ

/-- Model of `MempoolEntry`. -/
structure MempoolEntry where
  id : String
  tx : TransactionRecord
  tier : Nat
  priority : ℚ
  breakdown : PriorityBreakdownSnapshot
  addedAt : String

/-- Model of `MempoolSnapshot`: the three tier queues. -/
structure MempoolSnapshot where
  tier1 : List MempoolEntry
  tier2 : List MempoolEntry
  tier3 : List MempoolEntry

/-- The empty snapshot a fresh service starts from. -/
def emptySnapshot : MempoolSnapshot := { tier1 := [], tier2 := [], tier3 := [] }

/-- Model of `MEMPOOL_CAPACITY` (fixed 100 / 2000 / 8000). -/
def getCapacity (tier : Nat) : Nat :=
  if tier = 1 then 100 else if tier = 2 then 2000 else 8000

/-- Model of `getQueue`. -/
def getQueue (tier : Nat) (s : MempoolSnapshot) : List MempoolEntry :=
  if tier = 1 then s.tier1 else if tier = 2 then s.tier2 else s.tier3

/-- Replace one tier's queue. -/
def setQueue (tier : Nat) (s : MempoolSnapshot) (queue : List MempoolEntry) : MempoolSnapshot :=
  if tier = 1 then { s with tier1 := queue }
  else if tier = 2 then { s with tier2 := queue }
  else { s with tier3 := queue }

/-- Model of `determineTier`. -/
def determineTier (priorityScore hintedTier : ℚ) : Nat :=
  if hintedTier = 1 ∨ priorityScore ≥ mkRat 85 100 then 1
  else if hintedTier = 2 ∨ priorityScore ≥ mkRat 6 10 then 2
  else 3

/-- Comparator discipline of `queue.sort((a, b) => b.priority - a.priority)`:
an existing element stays ahead of the newcomer exactly when its priority is
at least the newcomer's (stable descending sort). -/
def prioDesc (a b : MempoolEntry) : Bool := decide (b.priority ≤ a.priority)

/-- The `entry` const of `addTransaction`. -/
def mkEntry (tx : TransactionRecord) (breakdown : PriorityBreakdownSnapshot)
    (addedAt : String) (tier : Nat) : MempoolEntry :=
  { id := tx.id, tx := tx, tier := tier, priority := breakdown.priority,
    breakdown := breakdown, addedAt := addedAt }

/-- The tier queue after `queue.push(entry); queue.sort(...)`. -/
def pushSorted (s : MempoolSnapshot) (tx : TransactionRecord)
    (breakdown : PriorityBreakdownSnapshot) (addedAt : String) (tier : Nat) :
    List MempoolEntry :=
  AuditLog.stableSort prioDesc (getQueue tier s ++ [mkEntry tx breakdown addedAt tier])

/-- Model of `addTransaction` (in-memory part): build the entry, push it onto the tier
queue, sort the queue by priority descending, and pop the last element as
evicted when the queue exceeds capacity. Returns (state, tier, evicted). -/
def addTransaction (s : MempoolSnapshot) (tx : TransactionRecord)
    (breakdown : PriorityBreakdownSnapshot) (addedAt : String) :
    MempoolSnapshot × Nat × Option MempoolEntry :=
  let tier := determineTier breakdown.priority tx.tier
  let queue := pushSorted s tx breakdown addedAt tier
  if queue.length > getCapacity tier then
    (setQueue tier s queue.dropLast, tier, queue.getLast?)
  else
    (setQueue tier s queue, tier, none)

/-- Model of `addTransaction` including the trailing `persist()`: a failing persist
rethrows to the caller, but the in-memory mutation has already happened and
stays. -/
def addTransactionPersist (s : MempoolSnapshot) (tx : TransactionRecord)
    (breakdown : PriorityBreakdownSnapshot) (addedAt : String) (persistOk : Bool) :
    MempoolSnapshot × Except String (Nat × Option MempoolEntry) :=
  match addTransaction s tx breakdown addedAt with
  | (s', tier, evicted) =>
    if persistOk then (s', .ok (tier, evicted))
    else (s', .error "persist failed")

/-- Remove the first entry with a given id from one queue (`findIndex` +
`splice(index, 1)`). -/
def removeFirstById (txId : String) : List MempoolEntry → List MempoolEntry
  | [] => []
  | e :: rest => if e.id = txId then rest else e :: removeFirstById txId rest

/-- Model of `removeTransaction`: each tier removes its own first matching entry. -/
def removeTransaction (s : MempoolSnapshot) (txId : String) : MempoolSnapshot :=
  { tier1 := removeFirstById txId s.tier1,
    tier2 := removeFirstById txId s.tier2,
    tier3 := removeFirstById txId s.tier3 }

/-- Model of `flushTransactions` (in-memory part; the single trailing persist does not
change the queues). -/
def flushTransactions (s : MempoolSnapshot) (txIds : List String) : MempoolSnapshot :=
  txIds.foldl removeTransaction s

end Mempool

/-! ## Context engine (sensitivity scoring)

Shallow embedding of `ContextEngine.extractPayloadText` and
`ContextEngine.calculateSensitivity`. Regex literals like `/stat/i` are
case-insensitive substring tests. -/

namespace ContextEngine

mutual

/-- Model of `traverse` inside `extractPayloadText`: depth-first leaf texts, skipping
falsy values (`null`, `false`, `0`, `""`), stringifying numbers and booleans. -/
def leafTexts : Jval → List String
  | .jnull => []
  | .jbool b => if b then ["true"] else []
  | .jint n => if n = 0 then [] else [toString n]
  | .jstr s => if s = "" then [] else [s]
  | .jarr elems => leafTextsArr elems
  | .jobj fields => leafTextsObj fields

/-- Leaf texts of an array's elements, in order. -/
def leafTextsArr : List Jval → List String
  | [] => []
  | v :: rest => leafTexts v ++ leafTextsArr rest

/-- Leaf texts of an object's values, in insertion order. -/
def leafTextsObj : List (String × Jval) → List String
  | [] => []
  | (_, v) :: rest => leafTexts v ++ leafTextsObj rest

end

/-- Model of `extractPayloadText`: the segments start with `tx.type`, followed by the
payload's leaf texts, joined by spaces. -/
def extractPayloadText (tx : Mempool.TransactionRecord) : String :=
  String.intercalate " " (tx.type :: leafTextsObj tx.payload)

/-- Model of `/pattern/i.test(text)` for the literal keyword patterns: case-insensitive
substring containment. -/
def testCI (text pattern : String) : Bool :=
  AuditLog.containsStr (AuditLog.lowerStr text) (AuditLog.lowerStr pattern)

/-- Model of `SENSITIVITY_FLAGS`, in declaration order. -/
def SENSITIVITY_FLAGS : List (String × ℚ) :=
  [("stat", mkRat 95 100), ("urgent", mkRat 8 10), ("routine", mkRat 4 10)]

/-- First-match scan of a flag list, with a default score. -/
def firstFlagScore (text : String) (dflt : ℚ) : List (String × ℚ) → ℚ
  | [] => dflt
  | (pattern, score) :: rest =>
    if testCI text pattern then score else firstFlagScore text dflt rest

/-- Model of `calculateSensitivity`: first matching sensitivity flag over the payload
text, default 0.5. -/
def calculateSensitivity (payloadText : String) : ℚ :=
  firstFlagScore payloadText (mkRat 5 10) SENSITIVITY_FLAGS

end ContextEngine

/-! ## Wallet challenge/verify service

Shallow embedding of `WalletAuthService.verifySignature`. The registry is a
lookup function (its `touch` on success only updates `lastSeenAt` and is not
observable through the nonce store); the cryptographic verifiers
(`ethers.verifyMessage` address recovery, node `crypto.verify` for
ed25519/rsa-pss) are the `sigOk` oracle; `Date.now()` / `Date.parse` are the
`now` / `parseDate` oracles. -/

namespace WalletAuth

/-- Model of `WalletType`. -/
inductive WalletType where
  | metamask
  | custom
deriving DecidableEq

/-- Model of `WalletStatus`. -/
inductive WalletStatus where
  | active
  | revoked
  | suspended
deriving DecidableEq

/-- Model of `WalletProfile`. -/
structure WalletProfile where
  id : String
  address : String
  addressNormalized : String
  type : WalletType
  label : Option String
  publicKey : Option String
  metadata : Option (List (String × Jval))
  roles : Option (List String)
  status : WalletStatus
  createdAt : String
  updatedAt : String
  lastSeenAt : Option String

/-- Model of `WalletNonceRecord`. -/
structure WalletNonceRecord where
  address : String
  addressNormalized : String
  nonce : String
  message : String
  walletType : WalletType
  issuedAt : String
  expiresAt : String
  context : Option (List (String × Jval))

/-- Model of `WalletNonceStore`: an object keyed by normalized address (keys unique). -/
def NonceStore : Type := List (String × WalletNonceRecord)

/-- Model of `this.nonceStore[normalized]`. -/
def lookupStore (store : NonceStore) (key : String) : Option WalletNonceRecord :=
  match store.find? (fun e => e.1 = key) with
  | some e => some e.2
  | none => none

/-- Model of `delete this.nonceStore[normalized]`. -/
def eraseStore (store : NonceStore) (key : String) : NonceStore :=
  store.filter (fun e => e.1 ≠ key)

/-- The distinct verification failures. -/
inductive VerifyError where
  | walletNotRegistered
  | noActiveNonce
  | nonceExpired
  | signatureInvalid
deriving DecidableEq

/-- Model of `WalletVerificationResult`. -/
structure WalletVerificationResult where
  success : Bool
  wallet : WalletProfile
  verifiedAt : String
  sessionToken : String
  proof : String

/-- The environment of one `verifySignature` call. -/
structure VerifyCtx where
  now : Int
  nowIso : String
  parseDate : String → Option Int
  sigOk : WalletProfile → String → String → Bool

/-- Model of `Date.now() > Date.parse(nonceRecord.expiresAt)` (false when the date
parses to `NaN`). -/
def nonceExpiredB (ctx : VerifyCtx) (nonceRecord : WalletNonceRecord) : Bool :=
  match ctx.parseDate nonceRecord.expiresAt with
  | some t => decide (ctx.now > t)
  | none => false

/-- Model of `verifySignature`: look up the wallet, then its active nonce; reject an
absent or expired nonce or a failing signature; on success delete the nonce
and return the session token and proof. Returns the new nonce store and the
outcome. -/
def verifySignature (registry : String → Option WalletProfile) (store : NonceStore)
    (address signature : String) (ctx : VerifyCtx) :
    NonceStore × Except VerifyError WalletVerificationResult :=
  match registry address with
  | none => (store, .error .walletNotRegistered)
  | some wallet =>
    let normalized := wallet.addressNormalized
    match lookupStore store normalized with
    | none => (store, .error .noActiveNonce)
    | some nonceRecord =>
      if nonceExpiredB ctx nonceRecord then
        (eraseStore store normalized, .error .nonceExpired)
      else if ctx.sigOk wallet nonceRecord.message signature then
        (eraseStore store normalized,
         .ok { success := true, wallet := wallet, verifiedAt := ctx.nowIso,
               sessionToken :=
                 Sha256.sha256 (wallet.id ++ ":" ++ nonceRecord.nonce ++ ":" ++ ctx.nowIso),
               proof := Sha256.sha256 (signature ++ ":" ++ nonceRecord.message) })
      else
        (store, .error .signatureInvalid)

end WalletAuth

/-! ## Invariant predicates -/

namespace AuditLog

/-- Sortedness under a Boolean comparator discipline. -/
def SortedB (keepBefore : α → α → Bool) (l : List α) : Prop :=
  l.Pairwise (fun a b => keepBefore a b = true)

/-- The hash-chain well-formedness of a ledger: contiguous sequences `1..N`,
root `prevHash` on the first entry, and every later entry's `prevHash` equal
to its predecessor's `integrityHash`. -/
def chainOk (log : List AuditLogEntry) : Prop :=
  (∀ i, i < log.length → (log.getD i defaultEntry).sequence = i + 1) ∧
  (0 < log.length → (log.getD 0 defaultEntry).prevHash = "AUDIT_ROOT") ∧
  (∀ i, i < log.length → 0 < i →
    (log.getD i defaultEntry).prevHash = (log.getD (i - 1) defaultEntry).integrityHash)

/-- The service invariant: the next sequence is one past the ledger length,
the ledger chain is well-formed, and `lastIntegrityHash` is the tail entry's
`integrityHash` (the root marker over an empty ledger). -/
def auditInv (s : AuditState) : Prop :=
  s.nextSequence = s.log.length + 1 ∧ chainOk s.log ∧
  s.lastIntegrityHash = ((s.log.getLast?).map (·.integrityHash)).getD "AUDIT_ROOT"

end AuditLog

namespace Mempool

/-- One tier's invariant: within capacity and priority-sorted descending. -/
def tierOk (capacity : Nat) (queue : List MempoolEntry) : Prop :=
  queue.length ≤ capacity ∧ AuditLog.SortedB prioDesc queue

/-- The mempool snapshot invariant of §3. -/
def mempoolInv (s : MempoolSnapshot) : Prop :=
  tierOk 100 s.tier1 ∧ tierOk 2000 s.tier2 ∧ tierOk 8000 s.tier3

end Mempool

/-! ## Concrete fixtures for witnesses and counterexamples -/

/-- Whether an `Except` is a success. -/
def isOkB : Except ε α → Bool
  | .ok _ => true
  | .error _ => false

namespace AuditLog

/-- Out-of-range default for query results. -/
def defaultQueryResult : AuditLogQueryResult :=
  { entries := [], totalMatches := 0, nextCursor := none, previousCursor := none, hasMore := false }

/-- A minimal valid record input. -/
def minimalInput : AuditLogRecordInput :=
  { id := none, timestamp := none, action := "Create", actorId := "actor-1",
    actorType := "clinician", resource := "patient-record", outcome := "success",
    patientId := none, ipAddress := none, blockHash := none, details := none,
    metadata := none, tags := none, channel := none }

/-- C2 fixture: a record input with every optional field present. -/
def c2input : AuditLogRecordInput :=
  { id := some "aud-1", timestamp := some "2024-05-01T10:00:00.000Z", action := "Create",
    actorId := "actor-1", actorType := "clinician", resource := "patient-record",
    outcome := "success", patientId := some "patient-9", ipAddress := some "10.0.0.1",
    blockHash := some "0xabc", details := some "created", metadata := some [("k", Jval.jstr "v")],
    tags := some ["phi"], channel := some "api" }

/-- C2 fixture: the record call on the fresh service. -/
def c2result : Except String (AuditState × AuditLogEntry) :=
  record initialAuditState c2input "2024-05-01T10:00:00.000Z" "uuid-1"

/-- C2 fixture: the recorded entry. -/
def c2entry : AuditLogEntry :=
  match c2result with
  | .ok (_, e) => e
  | .error _ => defaultEntry

/-- C2 fixture: the state after the record call. -/
def c2state : AuditState :=
  match c2result with
  | .ok (st, _) => st
  | .error _ => initialAuditState

/-- C2 fixture: the recorded entry's base payload, reconstructed from its
stored fields. -/
def basePayloadOf (e : AuditLogEntry) : BasePayload :=
  { sequence := e.sequence, timestamp := e.timestamp, action := e.action,
    actorId := e.actorId, actorType := e.actorType, resource := e.resource,
    outcome := e.outcome, patientId := e.patientId, ipAddress := e.ipAddress,
    blockHash := e.blockHash, details := e.details, metadata := e.metadata,
    tags := e.tags.getD [], channel := e.channel.getD "system" }

/-- C3 fixture: one committed, well-formed entry. -/
def c3entry : AuditLogEntry :=
  { defaultEntry with
    id := "aud-1", sequence := 1, timestamp := "2024-01-01T00:00:00.000Z",
    action := "Create", actorId := "actor-1", actorType := "system",
    resource := "patient-record", outcome := "success",
    prevHash := "AUDIT_ROOT", integrityHash := "h1" }

/-- C3 fixture: a ledger file whose tail line fails to parse. -/
def c3file : List AuditFileLine := [.ok c3entry, .bad "corrupted-tail-line"]

/-- C3 fixture: the startup reload over the corrupt-tailed file. -/
def c3reload : BootState × List AuditFileLine :=
  bootstrapStateFromFile { nextSequence := 2, lastIntegrityHash := "h1" } c3file

/-- C7 fixture: an entry with sequence 1. -/
def c7entryA : AuditLogEntry :=
  { defaultEntry with
    id := "aud-1", sequence := 1, timestamp := "2024-01-01T00:00:00.000Z",
    action := "Create", actorId := "actor-1", actorType := "system",
    resource := "patient-record", outcome := "success" }

/-- C7 fixture: an entry with sequence 2. -/
def c7entryB : AuditLogEntry :=
  { c7entryA with id := "aud-2", sequence := 2 }

/-- C7 fixture: the `Date.parse` oracle (no filter in the fixtures parses a
date, so every string is `NaN`). -/
def c7parse : String → Option Int := fun _ => none

/-- C7 counterexample fixture: a single-entry log queried with `limit: 1` —
the page ends exactly at the last matching entry. -/
def c7query : Option AuditLogQueryResult :=
  query c7parse [c7entryA] { defaultQueryOptions with limit := some 1 }

/-- C7 counterexample fixture: the returned page. -/
def c7page : AuditLogQueryResult := c7query.getD defaultQueryResult

/-- C7 witness fixture: a two-entry log queried with `limit: 1`. -/
def c7queryW : Option AuditLogQueryResult :=
  query c7parse [c7entryA, c7entryB] { defaultQueryOptions with limit := some 1 }

/-- C7 witness fixture: the returned page. -/
def c7pageW : AuditLogQueryResult := c7queryW.getD defaultQueryResult

/-- C9 fixture: the export call over an empty ledger. -/
def c9export : Option CsvExport :=
  exportCsv c7parse [] defaultQueryOptions "2024-01-01T00:00:00.000Z" "data/audit/exports"

/-- C9 fixture: its outcome. -/
def c9result : CsvExport := c9export.getD { written := "", returned := "" }

/-- C9 witness fixture: an export of one entry whose details contain a comma. -/
def c9entry : AuditLogEntry :=
  { c7entryA with details := some "created, with comma", tags := some ["phi", "write"] }

/-- C9 witness fixture: the query underlying the witness export. -/
def c9queryW : Option AuditLogQueryResult :=
  query c7parse [c9entry] { defaultQueryOptions with limit := some 1000 }

/-- C9 witness fixture: its page. -/
def c9pageW : AuditLogQueryResult := c9queryW.getD defaultQueryResult

end AuditLog

namespace Mempool

/-- C4 fixture: a routine transaction. -/
def c4tx : TransactionRecord :=
  { id := "tx-1", type := "lab", tier := mkRat 3 1, priority := mkRat 5 10, payload := [],
    signature := "sig", createdAt := "2024-01-01T00:00:00.000Z" }

/-- C4 fixture: its priority breakdown (tier 3 score). -/
def c4breakdown : PriorityBreakdownSnapshot :=
  { criticality := mkRat 5 10, sensitivity := mkRat 5 10, resources := mkRat 5 10,
    compliance := mkRat 1 10, priority := mkRat 5 10 }

/-- C4 fixture: an `addTransaction` whose snapshot persist fails. -/
def c4call : MempoolSnapshot × Except String (Nat × Option MempoolEntry) :=
  addTransactionPersist emptySnapshot c4tx c4breakdown "2024-01-01T00:00:00.000Z" false

/-- C5 witness fixture: a resident tier-2 entry with priority 0.7. -/
def c5entryA : MempoolEntry :=
  { id := "tx-a", tx := { c4tx with id := "tx-a" }, tier := 2, priority := mkRat 7 10,
    breakdown := { c4breakdown with priority := mkRat 7 10 }, addedAt := "t0" }

/-- C5 witness fixture: a resident tier-2 entry with priority 0.65. -/
def c5entryB : MempoolEntry :=
  { c5entryA with
    id := "tx-b", priority := mkRat 65 100,
    breakdown := { c4breakdown with priority := mkRat 65 100 } }

/-- C5 witness fixture: a snapshot with a two-entry tier-2 queue. -/
def c5snapshot : MempoolSnapshot := { tier1 := [], tier2 := [c5entryA, c5entryB], tier3 := [] }

/-- C10 fixture: a resident tier-1 entry with priority 0.95. -/
def c10resident : MempoolEntry :=
  { id := "tx-r", tx := { c4tx with id := "tx-r", tier := mkRat 1 1 }, tier := 1,
    priority := mkRat 95 100,
    breakdown := { c4breakdown with priority := mkRat 95 100 }, addedAt := "t0" }

/-- C10 fixture: tier 1 exactly at its capacity of 100. -/
def c10snapshot : MempoolSnapshot :=
  { tier1 := List.replicate 100 c10resident, tier2 := [], tier3 := [] }

/-- C10 fixture: the incoming transaction (priority 0.9 targets tier 1). -/
def c10tx : TransactionRecord :=
  { c4tx with id := "tx-new", tier := mkRat 1 1, priority := mkRat 9 10 }

/-- C10 fixture: the incoming breakdown. -/
def c10breakdown : PriorityBreakdownSnapshot :=
  { c4breakdown with priority := mkRat 9 10 }

end Mempool

namespace ContextEngine

/-- C6 fixture: a transaction whose type says "stat" but whose payload is empty. -/
def c6tx1 : Mempool.TransactionRecord :=
  { id := "tx-1", type := "stat", tier := mkRat 3 1, priority := mkRat 0 1, payload := [],
    signature := "sig", createdAt := "2024-01-01T00:00:00.000Z" }

/-- C6 fixture: the same payload under a different type. -/
def c6tx2 : Mempool.TransactionRecord := { c6tx1 with id := "tx-2", type := "lab-order" }

end ContextEngine

namespace WalletAuth

/-- C8 fixture: a registered external-signer wallet. -/
def c8wallet : WalletProfile :=
  { id := "wallet-1", address := "0xAbC", addressNormalized := "0xabc",
    type := .metamask, label := none, publicKey := none, metadata := none,
    roles := some ["clinician"], status := .active,
    createdAt := "2024-01-01T00:00:00.000Z", updatedAt := "2024-01-01T00:00:00.000Z",
    lastSeenAt := none }

/-- C8 fixture: the registry lookup. -/
def c8registry : String → Option WalletProfile :=
  fun address => if address = "0xAbC" then some c8wallet else none

/-- C8 fixture: the active nonce record. -/
def c8nonce : WalletNonceRecord :=
  { address := "0xAbC", addressNormalized := "0xabc", nonce := "CAMTC-1234",
    message := "CAMTC Healthcare Ledger", walletType := .metamask,
    issuedAt := "2024-01-01T00:00:00.000Z", expiresAt := "2024-01-01T00:05:00.000Z",
    context := none }

/-- C8 fixture: the nonce store holding the active nonce. -/
def c8store : NonceStore := [("0xabc", c8nonce)]

/-- C8 fixture: a call environment in which the nonce is fresh and the
signature verifies. -/
def c8ctx : VerifyCtx :=
  { now := 0, nowIso := "2024-01-01T00:01:00.000Z",
    parseDate := fun _ => some 300000, sigOk := fun _ _ _ => true }

/-- C8 fixture: the successful verification call. -/
def c8call : NonceStore × Except VerifyError WalletVerificationResult :=
  verifySignature c8registry c8store "0xAbC" "0xsig" c8ctx

/-- C8 fixture: its result. -/
def c8result : WalletVerificationResult :=
  match c8call.2 with
  | .ok r => r
  | .error _ =>
    { success := false, wallet := c8wallet, verifiedAt := "", sessionToken := "", proof := "" }

end WalletAuth

/-! ## Decidability of the invariant predicates -/

instance (kb : α → α → Bool) (l : List α) : Decidable (AuditLog.SortedB kb l) :=
  inferInstanceAs (Decidable (l.Pairwise _))

instance (c : Nat) (q : List Mempool.MempoolEntry) : Decidable (Mempool.tierOk c q) :=
  inferInstanceAs (Decidable (_ ∧ _))

instance (s : Mempool.MempoolSnapshot) : Decidable (Mempool.mempoolInv s) :=
  inferInstanceAs (Decidable (_ ∧ _ ∧ _))

instance (log : List AuditLog.AuditLogEntry) : Decidable (AuditLog.chainOk log) := by
  unfold AuditLog.chainOk
  infer_instance

instance (s : AuditLog.AuditState) : Decidable (AuditLog.auditInv s) :=
  inferInstanceAs (Decidable (_ ∧ _ ∧ _))

/-! ## Helper lemmas: stable insertion sort and indexed access -/

namespace AuditLog

theorem length_insertB (kb : α → α → Bool) (x : α) (l : List α) :
    (insertB kb x l).length = l.length + 1 := by
  induction l with
  | nil => rfl
  | cons y ys ih =>
    simp only [insertB]
    split
    · simpa using ih
    · rfl

theorem mem_insertB {kb : α → α → Bool} {x a : α} {l : List α} :
    a ∈ insertB kb x l ↔ a = x ∨ a ∈ l := by
  induction l with
  | nil => simp [insertB]
  | cons y ys ih =>
    simp only [insertB]
    split
    · simp only [List.mem_cons, ih]
      tauto
    · simp only [List.mem_cons]

theorem sortedB_insertB {kb : α → α → Bool}
    (htot : ∀ a b, kb a b = true ∨ kb b a = true)
    (htrans : ∀ a b c, kb a b = true → kb b c = true → kb a c = true)
    (x : α) {l : List α} (hl : SortedB kb l) : SortedB kb (insertB kb x l) := by
  unfold SortedB at *
  induction l with
  | nil => simp [insertB]
  | cons y ys ih =>
    rw [List.pairwise_cons] at hl
    obtain ⟨hy, hys⟩ := hl
    simp only [insertB]
    split
    case isTrue hkb =>
      rw [List.pairwise_cons]
      refine ⟨?_, ih hys⟩
      intro b hb
      rcases mem_insertB.mp hb with rfl | hbmem
      · exact hkb
      · exact hy b hbmem
    case isFalse hkb =>
      have hxy : kb x y = true := by
        rcases htot x y with h | h
        · exact h
        · exact absurd h hkb
      rw [List.pairwise_cons]
      refine ⟨?_, List.pairwise_cons.mpr ⟨hy, hys⟩⟩
      intro b hb
      rcases List.mem_cons.mp hb with rfl | hbmem
      · exact hxy
      · exact htrans x y b hxy (hy b hbmem)

theorem insertB_of_all {kb : α → α → Bool} {x : α} {l : List α}
    (h : ∀ y ∈ l, kb y x = true) : insertB kb x l = l ++ [x] := by
  induction l with
  | nil => rfl
  | cons y ys ih =>
    simp only [insertB, h y (List.mem_cons_self y ys), if_true]
    rw [ih fun z hz => h z (List.mem_cons_of_mem y hz)]
    rfl

theorem stableSort_concat (kb : α → α → Bool) (l : List α) (x : α) :
    stableSort kb (l ++ [x]) = insertB kb x (stableSort kb l) := by
  unfold stableSort
  rw [List.foldl_append]
  rfl

theorem length_foldl_insertB (kb : α → α → Bool) (l : List α) :
    ∀ acc : List α,
      (l.foldl (fun acc y => insertB kb y acc) acc).length = acc.length + l.length := by
  induction l with
  | nil => intro acc; rfl
  | cons y ys ih =>
    intro acc
    rw [List.foldl_cons, ih, length_insertB]
    simp only [List.length_cons]
    omega

theorem length_stableSort (kb : α → α → Bool) (l : List α) :
    (stableSort kb l).length = l.length := by
  unfold stableSort
  simpa using length_foldl_insertB kb l []

theorem sortedB_foldl_insertB {kb : α → α → Bool}
    (htot : ∀ a b, kb a b = true ∨ kb b a = true)
    (htrans : ∀ a b c, kb a b = true → kb b c = true → kb a c = true)
    (l : List α) :
    ∀ acc : List α, SortedB kb acc →
      SortedB kb (l.foldl (fun acc y => insertB kb y acc) acc) := by
  induction l with
  | nil => intro acc hacc; exact hacc
  | cons y ys ih =>
    intro acc hacc
    rw [List.foldl_cons]
    exact ih _ (sortedB_insertB htot htrans y hacc)

theorem sortedB_stableSort {kb : α → α → Bool}
    (htot : ∀ a b, kb a b = true ∨ kb b a = true)
    (htrans : ∀ a b c, kb a b = true → kb b c = true → kb a c = true)
    (l : List α) : SortedB kb (stableSort kb l) :=
  sortedB_foldl_insertB htot htrans l [] (List.Pairwise.nil)

theorem stableSort_of_sorted {kb : α → α → Bool} {l : List α}
    (h : SortedB kb l) : stableSort kb l = l := by
  induction l using List.reverseRecOn with
  | nil => rfl
  | append_singleton l x ih =>
    unfold SortedB at h
    rw [List.pairwise_append] at h
    rw [stableSort_concat, ih h.1]
    exact insertB_of_all fun y hy => h.2.2 y hy x (by simp)

theorem sortedB_dropLast {kb : α → α → Bool} {l : List α}
    (h : SortedB kb l) : SortedB kb l.dropLast :=
  List.Pairwise.sublist (List.dropLast_sublist l) h

theorem sortedB_getLast_le {kb : α → α → Bool} {l : List α}
    (h : SortedB kb l) {e : α} (hlast : l.getLast? = some e) :
    ∀ x ∈ l.dropLast, kb x e = true := by
  intro x hx
  have hne : l ≠ [] := by
    intro h0
    subst h0
    simp at hlast
  have hdecomp : l.dropLast ++ [l.getLast hne] = l := List.dropLast_append_getLast hne
  have hE : l.getLast hne = e := by
    have := List.getLast?_eq_getLast l hne
    rw [this] at hlast
    exact Option.some.inj hlast
  unfold SortedB at h
  rw [← hdecomp, List.pairwise_append] at h
  have := h.2.2 x hx (l.getLast hne) (by simp)
  rwa [hE] at this

theorem getD_append_left {l l' : List α} {i : Nat} {d : α} (h : i < l.length) :
    (l ++ l').getD i d = l.getD i d := by
  induction l generalizing i with
  | nil => simp at h
  | cons a as ih =>
    cases i with
    | zero => rfl
    | succ j =>
      simp only [List.cons_append, List.getD_cons_succ]
      exact ih (by simpa using h)

theorem getD_concat_self (l : List α) (e d : α) : (l ++ [e]).getD l.length d = e := by
  induction l with
  | nil => rfl
  | cons a as ih => simpa using ih

theorem getD_of_getLast? {l : List α} {e : α} (d : α) (h : l.getLast? = some e) :
    l.getD (l.length - 1) d = e := by
  induction l with
  | nil => simp at h
  | cons a as ih =>
    cases has : as with
    | nil =>
      subst has
      simp only [List.getLast?_singleton] at h
      simpa using Option.some.inj h
    | cons b bs =>
      subst has
      rw [List.getLast?_cons_cons] at h
      have := ih h
      simpa using this

end AuditLog

/-! ## Audit hash chain: invariant preservation and claim C1 -/

namespace AuditLog

theorem chainOk_append {log : List AuditLogEntry} {e : AuditLogEntry}
    (h : chainOk log)
    (hseq : e.sequence = log.length + 1)
    (hprev : e.prevHash = ((log.getLast?).map (·.integrityHash)).getD "AUDIT_ROOT") :
    chainOk (log ++ [e]) := by
  obtain ⟨h1, h2, h3⟩ := h
  have hlen : (log ++ [e]).length = log.length + 1 := by simp
  refine ⟨?_, ?_, ?_⟩
  · intro i hi
    rw [hlen] at hi
    rcases Nat.lt_succ_iff_lt_or_eq.mp hi with hlt | rfl
    · rw [getD_append_left hlt]
      exact h1 i hlt
    · rw [getD_concat_self]
      exact hseq
  · intro _
    cases hlog : log with
    | nil =>
      subst hlog
      simp only [List.nil_append, List.getD_cons_zero]
      simpa using hprev
    | cons a as =>
      subst hlog
      rw [getD_append_left (by simp)]
      exact h2 (by simp)
  · intro i hi hipos
    rw [hlen] at hi
    rcases Nat.lt_succ_iff_lt_or_eq.mp hi with hlt | rfl
    · rw [getD_append_left hlt, getD_append_left (by omega)]
      exact h3 i hlt hipos
    · rw [getD_concat_self, getD_append_left (by omega)]
      have hne : log ≠ [] := by
        intro h0
        rw [h0] at hipos
        simp at hipos
      obtain ⟨lastE, hlast⟩ : ∃ lastE, log.getLast? = some lastE := by
        cases hgl : log.getLast? with
        | none => exact absurd (List.getLast?_eq_none_iff.mp hgl) hne
        | some lastE => exact ⟨lastE, rfl⟩
      rw [hlast] at hprev
      simp only [Option.map_some', Option.getD_some] at hprev
      rw [getD_of_getLast? defaultEntry hlast]
      exact hprev

theorem auditInv_record {s : AuditState} {input : AuditLogRecordInput}
    {nowIso uuid : String} {s' : AuditState} {e : AuditLogEntry}
    (hinv : auditInv s) (hrec : record s input nowIso uuid = .ok (s', e)) :
    auditInv s' := by
  unfold record at hrec
  cases hval : validateInput input with
  | error msg =>
    rw [hval] at hrec
    exact absurd hrec (by simp)
  | ok u =>
    rw [hval] at hrec
    simp only [Except.ok.injEq, Prod.mk.injEq] at hrec
    obtain ⟨hs', he⟩ := hrec
    obtain ⟨hlen, hchain, hlast⟩ := hinv
    subst hs'
    refine ⟨?_, ?_, ?_⟩
    · simp [hlen]
    · apply chainOk_append hchain
      · simpa using hlen
      · exact hlast
    · simp [List.getLast?_concat]

theorem auditInv_runRecords {s : AuditState} (h : auditInv s)
    (calls : List (AuditLogRecordInput × String × String)) :
    auditInv (runRecords s calls) := by
  induction calls generalizing s with
  | nil => exact h
  | cons c rest ih =>
    unfold runRecords
    rw [List.foldl_cons]
    cases hrec : record s c.1 c.2.1 c.2.2 with
    | ok pr =>
      obtain ⟨s', e⟩ := pr
      exact ih (auditInv_record h hrec)
    | error msg =>
      exact ih h

end AuditLog

/-- C1: starting from an empty audit log, after any sequence of `record` calls
(a call that throws leaves the state unchanged, so in particular after any
sequence of successful calls), the stored entries have contiguous sequences
`1..N`, entry 1's `prevHash` is the literal string `"AUDIT_ROOT"`, and every
later entry's `prevHash` equals the `integrityHash` of its predecessor. -/
theorem audit_chain_hash_invariant (calls : List (AuditLog.AuditLogRecordInput × String × String)) :
    AuditLog.chainOk (AuditLog.runRecords AuditLog.initialAuditState calls).log :=
  (AuditLog.auditInv_runRecords (by decide) calls).2.1

/-- C1 witness: the chain invariant evaluated over two concrete record calls. -/
theorem audit_chain_hash_invariant_witness :
    AuditLog.chainOk (AuditLog.runRecords AuditLog.initialAuditState
      [(AuditLog.minimalInput, "2024-01-01T00:00:00.000Z", "uuid-1"),
       (AuditLog.minimalInput, "2024-01-01T00:00:01.000Z", "uuid-2")]).log :=
  audit_chain_hash_invariant
    [(AuditLog.minimalInput, "2024-01-01T00:00:00.000Z", "uuid-1"),
     (AuditLog.minimalInput, "2024-01-01T00:00:01.000Z", "uuid-2")]

/-! ## Claim C2: the integrity-hash serialization -/

/-- C2 (amended): every entry produced by `record` has
`integrityHash = SHA-256(JSON.stringify({prevHash, ...basePayload}))` — the
fifteen fields `{prevHash, sequence, timestamp, action, actorId, actorType,
resource, outcome, patientId, ipAddress, blockHash, details, metadata, tags,
channel}` serialized in that property-insertion order, with `undefined`-valued
optional fields elided; recomputing the hash from the stored entry's own
fields yields the stored value. The serialization does not sort keys. -/
theorem audit_integrity_hash_recomputation {s : AuditLog.AuditState}
    {input : AuditLog.AuditLogRecordInput} {nowIso uuid : String}
    {s' : AuditLog.AuditState} {e : AuditLog.AuditLogEntry}
    (hrec : AuditLog.record s input nowIso uuid = .ok (s', e)) :
    e.integrityHash =
      Sha256.sha256 (AuditLog.serializeHashInput e.prevHash (AuditLog.basePayloadOf e)) := by
  unfold AuditLog.record at hrec
  cases hval : AuditLog.validateInput input with
  | error msg =>
    rw [hval] at hrec
    exact absurd hrec (by simp)
  | ok u =>
    rw [hval] at hrec
    simp only [Except.ok.injEq, Prod.mk.injEq] at hrec
    obtain ⟨hs', he⟩ := hrec
    subst he
    rfl

/-- C2 witness: the recomputation property evaluated at a concrete record
call with every optional field present. -/
theorem audit_integrity_hash_recomputation_witness :
    AuditLog.record AuditLog.initialAuditState AuditLog.c2input
        "2024-05-01T10:00:00.000Z" "uuid-1" = .ok (AuditLog.c2state, AuditLog.c2entry) ∧
    AuditLog.c2entry.integrityHash =
      Sha256.sha256 (AuditLog.serializeHashInput AuditLog.c2entry.prevHash
        (AuditLog.basePayloadOf AuditLog.c2entry)) := by
  have h : AuditLog.record AuditLog.initialAuditState AuditLog.c2input
      "2024-05-01T10:00:00.000Z" "uuid-1" = .ok (AuditLog.c2state, AuditLog.c2entry) := rfl
  exact ⟨h, audit_integrity_hash_recomputation h⟩

set_option maxRecDepth 100000 in
/-- C2 counterexample: the claim's canonical serialization — sorted object
keys, no field elided — hashes to a different value than the entry's stored
`integrityHash` on a concrete record call (the code serializes in property
insertion order with `prevHash` first). -/
theorem audit_integrity_hash_counterexample :
    isOkB AuditLog.c2result = true ∧
    AuditLog.c2entry.integrityHash ≠
      Sha256.sha256 (AuditLog.canonicalSpecSerialization AuditLog.c2entry.prevHash
        (AuditLog.basePayloadOf AuditLog.c2entry)) :=
  ⟨rfl, by decide⟩

/-! ## Claim C3: the startup reload over a corrupt tail -/

/-- C3 (amended): on startup reload, an empty ledger file leaves the chain
tail unchanged; a fully parseable file rebuilds the tail from the
highest-sequence entry and leaves the file unchanged; but a file with any
unparseable line is reset wholesale — the ledger file is truncated to empty
and the tail returns to `nextSequence = 1`, `lastIntegrityHash = "AUDIT_ROOT"`
(no hash-chain verification happens on reload, and committed entries are not
preserved). -/
theorem audit_bootstrap_reset (s : AuditLog.BootState) (file : List AuditLog.AuditFileLine) :
    (file = [] → AuditLog.bootstrapStateFromFile s file = (s, file)) ∧
    (∀ entries lastE, file ≠ [] → AuditLog.parseAll file = some entries →
      (AuditLog.stableSort AuditLog.seqAsc entries).getLast? = some lastE →
      AuditLog.bootstrapStateFromFile s file =
        ({ nextSequence := lastE.sequence + 1, lastIntegrityHash := lastE.integrityHash }, file)) ∧
    (AuditLog.parseAll file = none →
      AuditLog.bootstrapStateFromFile s file =
        ({ nextSequence := 1, lastIntegrityHash := "AUDIT_ROOT" }, [])) := by
  refine ⟨?_, ?_, ?_⟩
  · intro h
    subst h
    rfl
  · intro entries lastE hne hparse hlast
    unfold AuditLog.bootstrapStateFromFile
    rw [if_neg (by simpa using hne), hparse]
    simp only [List.getLastD_eq_getLast?, hlast, Option.getD_some]
  · intro hparse
    have hne : file ≠ [] := by
      intro h0
      rw [h0] at hparse
      simp [AuditLog.parseAll] at hparse
    unfold AuditLog.bootstrapStateFromFile
    rw [if_neg (by simpa using hne), hparse]

/-- C3 witness: the three reload behaviours evaluated at concrete files. -/
theorem audit_bootstrap_reset_witness :
    AuditLog.bootstrapStateFromFile { nextSequence := 2, lastIntegrityHash := "h1" } [] =
      ({ nextSequence := 2, lastIntegrityHash := "h1" }, []) ∧
    AuditLog.bootstrapStateFromFile { nextSequence := 1, lastIntegrityHash := "AUDIT_ROOT" }
        [.ok AuditLog.c3entry] =
      ({ nextSequence := 2, lastIntegrityHash := "h1" }, [.ok AuditLog.c3entry]) ∧
    AuditLog.bootstrapStateFromFile { nextSequence := 2, lastIntegrityHash := "h1" }
        AuditLog.c3file =
      ({ nextSequence := 1, lastIntegrityHash := "AUDIT_ROOT" }, []) :=
  ⟨(audit_bootstrap_reset _ []).1 rfl,
   (audit_bootstrap_reset _ [.ok AuditLog.c3entry]).2.1 [AuditLog.c3entry] AuditLog.c3entry
     (by simp) rfl rfl,
   (audit_bootstrap_reset _ AuditLog.c3file).2.2 rfl⟩

/-- C3 counterexample: on the concrete file `[entry(seq 1, hash "h1"),
unparseable line]` the reload does not reset `lastIntegrityHash` to the last
valid entry's hash `"h1"` — it resets it to `"AUDIT_ROOT"` — and it truncates
the durable log from two committed lines to none. -/
theorem audit_bootstrap_reset_counterexample :
    AuditLog.c3reload.1.lastIntegrityHash = "AUDIT_ROOT" ∧
    AuditLog.c3entry.integrityHash = "h1" ∧
    ("AUDIT_ROOT" : String) ≠ "h1" ∧
    AuditLog.c3reload.2 = [] ∧
    AuditLog.c3file.length = 2 :=
  ⟨rfl, rfl, by decide, rfl, rfl⟩

/-! ## Claim C4: persist failure surfaces but the mutation stays -/

/-- C4 (amended): when the snapshot persist of `addTransaction` fails, the
error does surface to the caller, but the in-memory queues are NOT restored:
the returned state is exactly the already-mutated state (the inserted entry
stays in its tier and any popped entry stays evicted). -/
theorem mempool_persist_failure_keeps_mutation (s : Mempool.MempoolSnapshot)
    (tx : Mempool.TransactionRecord) (breakdown : Mempool.PriorityBreakdownSnapshot)
    (addedAt : String) :
    Mempool.addTransactionPersist s tx breakdown addedAt false =
      ((Mempool.addTransaction s tx breakdown addedAt).1, .error "persist failed") := by
  unfold Mempool.addTransactionPersist
  cases haux : Mempool.addTransaction s tx breakdown addedAt with
  | mk s' rest =>
    cases rest with
    | mk tier evicted => simp

/-- C4 witness: the amended behaviour at a concrete call. -/
theorem mempool_persist_failure_keeps_mutation_witness :
    Mempool.addTransactionPersist Mempool.emptySnapshot Mempool.c4tx Mempool.c4breakdown
        "2024-01-01T00:00:00.000Z" false =
      ((Mempool.addTransaction Mempool.emptySnapshot Mempool.c4tx Mempool.c4breakdown
          "2024-01-01T00:00:00.000Z").1, .error "persist failed") :=
  mempool_persist_failure_keeps_mutation Mempool.emptySnapshot Mempool.c4tx Mempool.c4breakdown
    "2024-01-01T00:00:00.000Z"

/-- C4 counterexample: starting from the empty mempool, a persist-failing
`addTransaction` surfaces the error, yet the inserted entry is still present
in tier 3 (the in-memory state is not restored to its pre-call value). -/
theorem mempool_persist_failure_counterexample :
    Mempool.c4call.2 = .error "persist failed" ∧
    Mempool.c4call.1.tier3.length = 1 ∧
    Mempool.emptySnapshot.tier3.length = 0 :=
  ⟨rfl, by decide, rfl⟩

/-! ## Mempool invariants: claims C5 and C10 -/

namespace Mempool

theorem prioDesc_total (a b : MempoolEntry) :
    prioDesc a b = true ∨ prioDesc b a = true := by
  unfold prioDesc
  rcases le_total a.priority b.priority with h | h
  · right
    exact decide_eq_true h
  · left
    exact decide_eq_true h

theorem prioDesc_trans (a b c : MempoolEntry)
    (hab : prioDesc a b = true) (hbc : prioDesc b c = true) : prioDesc a c = true := by
  unfold prioDesc at *
  exact decide_eq_true (le_trans (of_decide_eq_true hbc) (of_decide_eq_true hab))

theorem tierOk_getQueue {s : MempoolSnapshot} (hs : mempoolInv s) (tier : Nat) :
    tierOk (getCapacity tier) (getQueue tier s) := by
  obtain ⟨h1, h2, h3⟩ := hs
  by_cases t1 : tier = 1
  · simpa [getQueue, getCapacity, t1] using h1
  · by_cases t2 : tier = 2
    · simpa [getQueue, getCapacity, t1, t2] using h2
    · simpa [getQueue, getCapacity, t1, t2] using h3

theorem mempoolInv_setQueue {s : MempoolSnapshot} (hs : mempoolInv s) (tier : Nat)
    {q : List MempoolEntry} (hq : tierOk (getCapacity tier) q) :
    mempoolInv (setQueue tier s q) := by
  obtain ⟨h1, h2, h3⟩ := hs
  by_cases t1 : tier = 1
  · subst t1
    exact ⟨by simpa [getCapacity] using hq, h2, h3⟩
  · by_cases t2 : tier = 2
    · subst t2
      simp only [setQueue, if_neg (by omega : ¬(2 = 1)), if_pos rfl] at *
      exact ⟨h1, by simpa [getCapacity] using hq, h3⟩
    · simp only [setQueue, if_neg t1, if_neg t2]
      exact ⟨h1, h2, by simpa [getCapacity, t1, t2] using hq⟩

theorem getQueue_setQueue_self (tier : Nat) (s : MempoolSnapshot) (q : List MempoolEntry) :
    getQueue tier (setQueue tier s q) = q := by
  by_cases t1 : tier = 1
  · simp [getQueue, setQueue, t1]
  · by_cases t2 : tier = 2
    · simp [getQueue, setQueue, t1, t2]
    · simp [getQueue, setQueue, t1, t2]

theorem removeFirstById_sublist (txId : String) (l : List MempoolEntry) :
    (removeFirstById txId l).Sublist l := by
  induction l with
  | nil => exact List.Sublist.refl []
  | cons e rest ih =>
    simp only [removeFirstById]
    split
    · exact List.sublist_cons_self e rest
    · exact List.Sublist.cons₂ e ih

theorem tierOk_removeFirstById {cap : Nat} {l : List MempoolEntry}
    (h : tierOk cap l) (txId : String) : tierOk cap (removeFirstById txId l) :=
  ⟨le_trans (List.Sublist.length_le (removeFirstById_sublist txId l)) h.1,
   List.Pairwise.sublist (removeFirstById_sublist txId l) h.2⟩

theorem mempoolInv_removeTransaction {s : MempoolSnapshot} (hs : mempoolInv s) (txId : String) :
    mempoolInv (removeTransaction s txId) :=
  ⟨tierOk_removeFirstById hs.1 txId, tierOk_removeFirstById hs.2.1 txId,
   tierOk_removeFirstById hs.2.2 txId⟩

theorem addTransaction_eq_evict {s : MempoolSnapshot} {tx : TransactionRecord}
    {breakdown : PriorityBreakdownSnapshot} {addedAt : String}
    (h : (pushSorted s tx breakdown addedAt (determineTier breakdown.priority tx.tier)).length >
      getCapacity (determineTier breakdown.priority tx.tier)) :
    addTransaction s tx breakdown addedAt =
      (setQueue (determineTier breakdown.priority tx.tier) s
         (pushSorted s tx breakdown addedAt
           (determineTier breakdown.priority tx.tier)).dropLast,
       determineTier breakdown.priority tx.tier,
       (pushSorted s tx breakdown addedAt
         (determineTier breakdown.priority tx.tier)).getLast?) := by
  unfold addTransaction
  rw [if_pos h]

theorem addTransaction_eq_fit {s : MempoolSnapshot} {tx : TransactionRecord}
    {breakdown : PriorityBreakdownSnapshot} {addedAt : String}
    (h : ¬((pushSorted s tx breakdown addedAt
        (determineTier breakdown.priority tx.tier)).length >
      getCapacity (determineTier breakdown.priority tx.tier))) :
    addTransaction s tx breakdown addedAt =
      (setQueue (determineTier breakdown.priority tx.tier) s
         (pushSorted s tx breakdown addedAt (determineTier breakdown.priority tx.tier)),
       determineTier breakdown.priority tx.tier, none) := by
  unfold addTransaction
  rw [if_neg h]

theorem length_pushSorted (s : MempoolSnapshot) (tx : TransactionRecord)
    (breakdown : PriorityBreakdownSnapshot) (addedAt : String) (tier : Nat) :
    (pushSorted s tx breakdown addedAt tier).length = (getQueue tier s).length + 1 := by
  unfold pushSorted
  rw [AuditLog.length_stableSort]
  simp

theorem sortedB_pushSorted (s : MempoolSnapshot) (tx : TransactionRecord)
    (breakdown : PriorityBreakdownSnapshot) (addedAt : String) (tier : Nat) :
    AuditLog.SortedB prioDesc (pushSorted s tx breakdown addedAt tier) :=
  AuditLog.sortedB_stableSort prioDesc_total prioDesc_trans _

end Mempool

/-- C5: from any snapshot satisfying the §3 invariant, every mempool mutation
(`addTransaction`, `removeTransaction`, `flushTransactions`) preserves it —
each tier holds at most 100/2000/8000 entries, sorted by priority descending —
and when an insert pushes the target tier over capacity, the value returned as
`evicted` is the last element of the freshly sorted queue, whose priority is a
lower bound of everything kept in that tier. -/
theorem mempool_mutation_invariants (s : Mempool.MempoolSnapshot)
    (hs : Mempool.mempoolInv s) :
    (∀ tx breakdown addedAt,
      Mempool.mempoolInv (Mempool.addTransaction s tx breakdown addedAt).1 ∧
      ((Mempool.pushSorted s tx breakdown addedAt
            (Mempool.determineTier breakdown.priority tx.tier)).length >
          Mempool.getCapacity (Mempool.determineTier breakdown.priority tx.tier) →
        (Mempool.addTransaction s tx breakdown addedAt).2.2 =
          (Mempool.pushSorted s tx breakdown addedAt
            (Mempool.determineTier breakdown.priority tx.tier)).getLast?) ∧
      (∀ ev, (Mempool.addTransaction s tx breakdown addedAt).2.2 = some ev →
        ∀ x ∈ Mempool.getQueue (Mempool.addTransaction s tx breakdown addedAt).2.1
            (Mempool.addTransaction s tx breakdown addedAt).1,
          ev.priority ≤ x.priority)) ∧
    (∀ txId, Mempool.mempoolInv (Mempool.removeTransaction s txId)) ∧
    (∀ txIds, Mempool.mempoolInv (Mempool.flushTransactions s txIds)) := by
  refine ⟨?_, fun txId => Mempool.mempoolInv_removeTransaction hs txId, ?_⟩
  · intro tx breakdown addedAt
    have hq := Mempool.tierOk_getQueue hs (Mempool.determineTier breakdown.priority tx.tier)
    have hsorted := Mempool.sortedB_pushSorted s tx breakdown addedAt
      (Mempool.determineTier breakdown.priority tx.tier)
    have hlen := Mempool.length_pushSorted s tx breakdown addedAt
      (Mempool.determineTier breakdown.priority tx.tier)
    by_cases hcap : (Mempool.pushSorted s tx breakdown addedAt
        (Mempool.determineTier breakdown.priority tx.tier)).length >
      Mempool.getCapacity (Mempool.determineTier breakdown.priority tx.tier)
    · rw [Mempool.addTransaction_eq_evict hcap]
      refine ⟨?_, fun _ => rfl, ?_⟩
      · apply Mempool.mempoolInv_setQueue hs
        constructor
        · rw [List.length_dropLast, hlen]
          have := hq.1
          omega
        · exact AuditLog.sortedB_dropLast hsorted
      · intro ev hev x hx
        simp only [Mempool.getQueue_setQueue_self] at hx
        have := AuditLog.sortedB_getLast_le hsorted hev x hx
        exact of_decide_eq_true this
    · rw [Mempool.addTransaction_eq_fit hcap]
      refine ⟨?_, fun h => absurd h hcap, ?_⟩
      · apply Mempool.mempoolInv_setQueue hs
        exact ⟨by omega, hsorted⟩
      · intro ev hev
        exact absurd hev (by simp)
  · intro txIds
    induction txIds generalizing s with
    | nil => exact hs
    | cons i rest ih =>
      unfold Mempool.flushTransactions
      rw [List.foldl_cons]
      exact ih _ (Mempool.mempoolInv_removeTransaction hs i)

/-- C5 witness: the invariant evaluated across the three mutations at a
concrete two-entry snapshot. -/
theorem mempool_mutation_invariants_witness :
    Mempool.mempoolInv Mempool.c5snapshot ∧
    Mempool.mempoolInv (Mempool.addTransaction Mempool.c5snapshot Mempool.c4tx
      Mempool.c4breakdown "t1").1 ∧
    Mempool.mempoolInv (Mempool.removeTransaction Mempool.c5snapshot "tx-a") ∧
    Mempool.mempoolInv (Mempool.flushTransactions Mempool.c5snapshot ["tx-a", "tx-b"]) :=
  ⟨by decide,
   ((mempool_mutation_invariants Mempool.c5snapshot (by decide)).1 Mempool.c4tx
     Mempool.c4breakdown "t1").1,
   (mempool_mutation_invariants Mempool.c5snapshot (by decide)).2.1 "tx-a",
   (mempool_mutation_invariants Mempool.c5snapshot (by decide)).2.2 ["tx-a", "tx-b"]⟩

/-- C10: when `addTransaction` targets a tier exactly at capacity and every
resident entry's priority is at least the incoming one's, the returned
`evicted` is the incoming entry itself and the tier's resident entries are
unchanged (the stable sort keeps earlier-admitted ties ahead of the
newcomer, which therefore sorts last and is popped). -/
theorem mempool_full_tier_evicts_newcomer (s : Mempool.MempoolSnapshot)
    (tx : Mempool.TransactionRecord) (breakdown : Mempool.PriorityBreakdownSnapshot)
    (addedAt : String)
    (hsorted : AuditLog.SortedB Mempool.prioDesc
      (Mempool.getQueue (Mempool.determineTier breakdown.priority tx.tier) s))
    (hfull : (Mempool.getQueue (Mempool.determineTier breakdown.priority tx.tier) s).length =
      Mempool.getCapacity (Mempool.determineTier breakdown.priority tx.tier))
    (hge : ∀ y ∈ Mempool.getQueue (Mempool.determineTier breakdown.priority tx.tier) s,
      breakdown.priority ≤ y.priority) :
    (Mempool.addTransaction s tx breakdown addedAt).2.2 =
      some (Mempool.mkEntry tx breakdown addedAt
        (Mempool.determineTier breakdown.priority tx.tier)) ∧
    Mempool.getQueue (Mempool.determineTier breakdown.priority tx.tier)
        (Mempool.addTransaction s tx breakdown addedAt).1 =
      Mempool.getQueue (Mempool.determineTier breakdown.priority tx.tier) s := by
  have hpush : Mempool.pushSorted s tx breakdown addedAt
      (Mempool.determineTier breakdown.priority tx.tier) =
      Mempool.getQueue (Mempool.determineTier breakdown.priority tx.tier) s ++
        [Mempool.mkEntry tx breakdown addedAt
          (Mempool.determineTier breakdown.priority tx.tier)] := by
    unfold Mempool.pushSorted
    rw [AuditLog.stableSort_concat, AuditLog.stableSort_of_sorted hsorted]
    exact AuditLog.insertB_of_all fun y hy => decide_eq_true (hge y hy)
  have hcap : (Mempool.pushSorted s tx breakdown addedAt
      (Mempool.determineTier breakdown.priority tx.tier)).length >
      Mempool.getCapacity (Mempool.determineTier breakdown.priority tx.tier) := by
    rw [hpush]
    simp only [List.length_append, List.length_singleton]
    omega
  rw [Mempool.addTransaction_eq_evict hcap]
  refine ⟨?_, ?_⟩
  · rw [hpush, List.getLast?_concat]
  · rw [Mempool.getQueue_setQueue_self, hpush, List.dropLast_concat]

/-- C10 witness: tier 1 filled to its capacity of 100 with priority-0.95
entries rejects and returns an incoming priority-0.9 entry unchanged. -/
theorem mempool_full_tier_evicts_newcomer_witness :
    AuditLog.SortedB Mempool.prioDesc
      (Mempool.getQueue (Mempool.determineTier Mempool.c10breakdown.priority
        Mempool.c10tx.tier) Mempool.c10snapshot) ∧
    (Mempool.getQueue (Mempool.determineTier Mempool.c10breakdown.priority Mempool.c10tx.tier)
        Mempool.c10snapshot).length =
      Mempool.getCapacity (Mempool.determineTier Mempool.c10breakdown.priority
        Mempool.c10tx.tier) ∧
    (Mempool.addTransaction Mempool.c10snapshot Mempool.c10tx Mempool.c10breakdown "t1").2.2 =
      some (Mempool.mkEntry Mempool.c10tx Mempool.c10breakdown "t1"
        (Mempool.determineTier Mempool.c10breakdown.priority Mempool.c10tx.tier)) ∧
    Mempool.getQueue (Mempool.determineTier Mempool.c10breakdown.priority Mempool.c10tx.tier)
        (Mempool.addTransaction Mempool.c10snapshot Mempool.c10tx Mempool.c10breakdown "t1").1 =
      Mempool.getQueue (Mempool.determineTier Mempool.c10breakdown.priority Mempool.c10tx.tier)
        Mempool.c10snapshot :=
  ⟨by decide, by decide,
   (mempool_full_tier_evicts_newcomer Mempool.c10snapshot Mempool.c10tx Mempool.c10breakdown
     "t1" (by decide) (by decide)
     (fun y hy => by
       have : y = Mempool.c10resident := List.eq_of_mem_replicate hy
       rw [this]
       decide)).1,
   (mempool_full_tier_evicts_newcomer Mempool.c10snapshot Mempool.c10tx Mempool.c10breakdown
     "t1" (by decide) (by decide)
     (fun y hy => by
       have : y = Mempool.c10resident := List.eq_of_mem_replicate hy
       rw [this]
       decide)).2⟩

/-! ## Claim C6: sensitivity scoring -/

/-- C6 (amended): the sensitivity score is the score of the first matching
flag among "stat" (0.95), "urgent" (0.80), "routine" (0.40), scanned
case-insensitively, and 0.50 when none matches — but the scanned text is the
flattened payload text whose FIRST segment is `tx.type` (the `segments` array
of `extractPayloadText` starts with the type). Consequently two transactions
with identical payloads and identical types score equally, but identical
payloads under different type strings need not. -/
theorem sensitivity_first_match_over_type_and_payload :
    (∀ tx : Mempool.TransactionRecord,
      ContextEngine.extractPayloadText tx =
        String.intercalate " " (tx.type :: ContextEngine.leafTextsObj tx.payload)) ∧
    (∀ text : String,
      (ContextEngine.testCI text "stat" = true →
        ContextEngine.calculateSensitivity text = 0.95) ∧
      (ContextEngine.testCI text "stat" = false → ContextEngine.testCI text "urgent" = true →
        ContextEngine.calculateSensitivity text = 0.80) ∧
      (ContextEngine.testCI text "stat" = false → ContextEngine.testCI text "urgent" = false →
        ContextEngine.testCI text "routine" = true →
        ContextEngine.calculateSensitivity text = 0.40) ∧
      (ContextEngine.testCI text "stat" = false → ContextEngine.testCI text "urgent" = false →
        ContextEngine.testCI text "routine" = false →
        ContextEngine.calculateSensitivity text = 0.50)) ∧
    (∀ tx1 tx2 : Mempool.TransactionRecord, tx1.type = tx2.type →
      tx1.payload = tx2.payload →
      ContextEngine.calculateSensitivity (ContextEngine.extractPayloadText tx1) =
        ContextEngine.calculateSensitivity (ContextEngine.extractPayloadText tx2)) := by
  refine ⟨fun tx => rfl, fun text => ⟨?_, ?_, ?_, ?_⟩, ?_⟩
  · intro h1
    simp only [ContextEngine.calculateSensitivity, ContextEngine.SENSITIVITY_FLAGS,
      ContextEngine.firstFlagScore, h1, if_true]
    norm_num
  · intro h1 h2
    simp only [ContextEngine.calculateSensitivity, ContextEngine.SENSITIVITY_FLAGS,
      ContextEngine.firstFlagScore, h1, h2, if_true, if_false, Bool.false_eq_true]
    norm_num
  · intro h1 h2 h3
    simp only [ContextEngine.calculateSensitivity, ContextEngine.SENSITIVITY_FLAGS,
      ContextEngine.firstFlagScore, h1, h2, h3, if_true, if_false, Bool.false_eq_true]
    norm_num
  · intro h1 h2 h3
    simp only [ContextEngine.calculateSensitivity, ContextEngine.SENSITIVITY_FLAGS,
      ContextEngine.firstFlagScore, h1, h2, h3, if_false, Bool.false_eq_true]
    norm_num
  · intro tx1 tx2 htype hpayload
    unfold ContextEngine.extractPayloadText
    rw [htype, hpayload]

/-- C6 witness: the first-match semantics evaluated at a concrete urgent-
flagged payload text. -/
theorem sensitivity_first_match_witness :
    ContextEngine.testCI "Lab Result urgent follow-up" "stat" = false ∧
    ContextEngine.testCI "Lab Result urgent follow-up" "urgent" = true ∧
    ContextEngine.calculateSensitivity "Lab Result urgent follow-up" = 0.80 :=
  ⟨by decide, by decide,
   (sensitivity_first_match_over_type_and_payload.2.1 "Lab Result urgent follow-up").2.1
     (by decide) (by decide)⟩

/-- C6 counterexample: two transactions with identical (empty) payloads but
types "stat" and "lab-order" score 0.95 and 0.50 — the sensitivity scan is
not over the payload text alone, because `extractPayloadText` seeds its
segment list with `tx.type`. -/
theorem sensitivity_type_dependence_counterexample :
    ContextEngine.c6tx1.payload = ContextEngine.c6tx2.payload ∧
    ContextEngine.calculateSensitivity (ContextEngine.extractPayloadText ContextEngine.c6tx1)
      = 0.95 ∧
    ContextEngine.calculateSensitivity (ContextEngine.extractPayloadText ContextEngine.c6tx2)
      = 0.50 ∧
    ContextEngine.calculateSensitivity (ContextEngine.extractPayloadText ContextEngine.c6tx1)
      ≠ ContextEngine.calculateSensitivity (ContextEngine.extractPayloadText ContextEngine.c6tx2)
    := by
  have h1 : ContextEngine.calculateSensitivity
      (ContextEngine.extractPayloadText ContextEngine.c6tx1) = mkRat 95 100 := by decide
  have h2 : ContextEngine.calculateSensitivity
      (ContextEngine.extractPayloadText ContextEngine.c6tx2) = mkRat 5 10 := by decide
  refine ⟨rfl, ?_, ?_, ?_⟩
  · rw [h1]
    norm_num
  · rw [h2]
    norm_num
  · rw [h1, h2]
    norm_num

/-! ## Claim C7: query pagination and `hasMore` -/

/-- C7 (amended): `hasMore` is true exactly when the returned page is full —
its length equals the requested limit (default 100) — not when a further
matching entry exists; `totalMatches` counts all filter-matching rows
irrespective of pagination. -/
theorem audit_query_hasMore_iff_full_page (parseDate : String → Option Int)
    (log : List AuditLog.AuditLogEntry) (options : AuditLog.AuditLogQueryOptions)
    (r : AuditLog.AuditLogQueryResult)
    (h : AuditLog.query parseDate log options = some r) :
    (r.hasMore = true ↔ r.entries.length = options.limit.getD 100) ∧
    r.totalMatches = (AuditLog.queryFiltered parseDate log options).length := by
  unfold AuditLog.query at h
  by_cases hw : (AuditLog.queryWindow parseDate log options).length = options.limit.getD 100
  · rw [if_pos hw] at h
    cases hlast : (AuditLog.queryWindow parseDate log options).getLast? with
    | none =>
      rw [hlast] at h
      exact absurd h (by simp)
    | some lastEntry =>
      rw [hlast] at h
      have := Option.some.inj h
      subst this
      exact ⟨by simpa using hw, rfl⟩
  · rw [if_neg hw] at h
    have := Option.some.inj h
    subst this
    refine ⟨?_, rfl⟩
    constructor
    · intro hfalse
      simp at hfalse
    · intro hlen
      exact absurd hlen hw

/-- C7 witness: a two-entry log queried with `limit: 1` returns one entry and
`hasMore = true`. -/
theorem audit_query_hasMore_iff_full_page_witness :
    AuditLog.query AuditLog.c7parse [AuditLog.c7entryA, AuditLog.c7entryB]
        { AuditLog.defaultQueryOptions with limit := some 1 } = some AuditLog.c7pageW ∧
    (AuditLog.c7pageW.hasMore = true ↔ AuditLog.c7pageW.entries.length = 1) :=
  ⟨rfl,
   (audit_query_hasMore_iff_full_page AuditLog.c7parse [AuditLog.c7entryA, AuditLog.c7entryB]
     { AuditLog.defaultQueryOptions with limit := some 1 } AuditLog.c7pageW rfl).1⟩

/-- C7 counterexample: a single-entry log queried with `limit: 1` — the page
ends exactly at the last matching entry (it contains every match:
`entries.length = totalMatches = 1`), yet `hasMore` is `true`, contradicting
the claim that `hasMore` is true only when a further matching entry exists. -/
theorem audit_query_hasMore_counterexample :
    AuditLog.c7query = some AuditLog.c7page ∧
    AuditLog.c7page.hasMore = true ∧
    AuditLog.c7page.entries.length = 1 ∧
    AuditLog.c7page.totalMatches = 1 :=
  ⟨rfl, by decide, by decide, by decide⟩

/-! ## Claim C8: a consumed nonce cannot be re-used -/

namespace WalletAuth

theorem lookupStore_eraseStore (store : NonceStore) (key : String) :
    lookupStore (eraseStore store key) key = none := by
  induction store with
  | nil => rfl
  | cons e rest ih =>
    unfold eraseStore at ih ⊢
    rw [List.filter_cons]
    by_cases hk : e.1 = key
    · rw [if_neg (by simp [hk])]
      exact ih
    · rw [if_pos (by simp [hk])]
      unfold lookupStore at ih ⊢
      rw [List.find?_cons_of_neg _ (by simp [hk])]
      exact ih

end WalletAuth

/-- C8: once `verifySignature` succeeds for an address, the nonce record is
deleted from the store, so any immediately following verification for that
address — whatever signature or call environment — fails with the
"no active nonce" error; a consumed nonce can never be re-used. -/
theorem wallet_verified_nonce_single_use
    (registry : String → Option WalletAuth.WalletProfile) (store : WalletAuth.NonceStore)
    (address signature : String) (ctx : WalletAuth.VerifyCtx)
    (store1 : WalletAuth.NonceStore) (result : WalletAuth.WalletVerificationResult)
    (h : WalletAuth.verifySignature registry store address signature ctx = (store1, .ok result)) :
    ∀ (signature2 : String) (ctx2 : WalletAuth.VerifyCtx),
      (WalletAuth.verifySignature registry store1 address signature2 ctx2).2 =
        .error .noActiveNonce := by
  intro signature2 ctx2
  unfold WalletAuth.verifySignature at h ⊢
  cases hreg : registry address with
  | none =>
    rw [hreg] at h
    dsimp only at h
    exact absurd (congrArg Prod.snd h) (by simp)
  | some wallet =>
    rw [hreg] at h
    dsimp only at h ⊢
    cases hnonce : WalletAuth.lookupStore store wallet.addressNormalized with
    | none =>
      rw [hnonce] at h
      dsimp only at h
      exact absurd (congrArg Prod.snd h) (by simp)
    | some nonceRecord =>
      rw [hnonce] at h
      dsimp only at h
      by_cases hexp : WalletAuth.nonceExpiredB ctx nonceRecord = true
      · rw [if_pos hexp] at h
        exact absurd (congrArg Prod.snd h) (by simp)
      · rw [if_neg hexp] at h
        by_cases hsig : ctx.sigOk wallet nonceRecord.message signature = true
        · rw [if_pos hsig] at h
          have hstore : store1 = WalletAuth.eraseStore store wallet.addressNormalized :=
            (congrArg Prod.fst h).symm
          subst hstore
          rw [WalletAuth.lookupStore_eraseStore]
        · rw [if_neg hsig] at h
          exact absurd (congrArg Prod.snd h) (by simp)

/-- C8 witness: a concrete successful verification deletes the nonce, and the
immediate retry fails with the no-active-nonce error. -/
theorem wallet_verified_nonce_single_use_witness :
    WalletAuth.verifySignature WalletAuth.c8registry WalletAuth.c8store "0xAbC" "0xsig"
        WalletAuth.c8ctx = (WalletAuth.c8call.1, .ok WalletAuth.c8result) ∧
    (WalletAuth.verifySignature WalletAuth.c8registry WalletAuth.c8call.1 "0xAbC" "0xsig2"
        WalletAuth.c8ctx).2 = .error .noActiveNonce := by
  have h : WalletAuth.verifySignature WalletAuth.c8registry WalletAuth.c8store "0xAbC" "0xsig"
      WalletAuth.c8ctx = (WalletAuth.c8call.1, .ok WalletAuth.c8result) := rfl
  exact ⟨h, wallet_verified_nonce_single_use WalletAuth.c8registry WalletAuth.c8store "0xAbC"
    "0xsig" WalletAuth.c8ctx WalletAuth.c8call.1 WalletAuth.c8result h "0xsig2" WalletAuth.c8ctx⟩

/-! ## Claim C9: CSV export -/

/-- C9 (amended): `exportCsv` builds a CSV payload whose first row is the
fixed header `sequence,id,timestamp,action,actorId,actorType,resource,
outcome,patientId,ipAddress,blockHash,channel,tags,details`, with tags joined
by `|` (column 13) and every field containing a comma, a double quote or a
newline wrapped in double quotes with embedded quotes doubled — but it writes
that payload to a timestamped file under the export directory and RETURNS the
destination path, not the CSV string. -/
theorem audit_exportCsv_format_and_path :
    String.intercalate "," AuditLog.csvHeader =
      "sequence,id,timestamp,action,actorId,actorType,resource,outcome,patientId,ipAddress,blockHash,channel,tags,details" ∧
    (∀ value : String,
      ((value.data.contains ',' || value.data.contains '"' ||
          value.data.contains (Char.ofNat 10)) = true →
        AuditLog.escapeCsv value =
          "\"" ++ String.mk (value.data.flatMap
            (fun c => if c = '"' then ['"', '"'] else [c])) ++ "\"") ∧
      ((value.data.contains ',' || value.data.contains '"' ||
          value.data.contains (Char.ofNat 10)) = false →
        AuditLog.escapeCsv value = value)) ∧
    (∀ entry : AuditLog.AuditLogEntry,
      AuditLog.csvRow entry = String.intercalate "," ((AuditLog.csvFields entry).map
        AuditLog.escapeCsv) ∧
      (AuditLog.csvFields entry).getD 12 "" =
        String.intercalate "|" (entry.tags.getD [])) ∧
    (∀ (parseDate : String → Option Int) (log : List AuditLog.AuditLogEntry)
        (options : AuditLog.AuditLogQueryOptions) (nowIso exportDir : String)
        (qr : AuditLog.AuditLogQueryResult),
      AuditLog.query parseDate log
          { options with limit := some (options.limit.getD 1000) } = some qr →
      AuditLog.exportCsv parseDate log options nowIso exportDir =
        some { written := String.intercalate "\n"
                 (String.intercalate "," AuditLog.csvHeader :: qr.entries.map AuditLog.csvRow),
               returned :=
                 exportDir ++ "/" ++
                   ("audit-export-" ++ AuditLog.sanitizeTimestamp nowIso ++ ".csv") }) := by
  refine ⟨rfl, ?_, fun entry => ⟨rfl, rfl⟩, ?_⟩
  · intro value
    constructor
    · intro h
      unfold AuditLog.escapeCsv
      rw [if_pos h]
    · intro h
      unfold AuditLog.escapeCsv
      rw [if_neg (by intro heq; rw [h] at heq; exact absurd heq (by decide))]
  · intro parseDate log options nowIso exportDir qr h
    unfold AuditLog.exportCsv
    rw [h]

/-- C9 witness: a one-entry export whose details contain a comma, evaluated
concretely; the written payload carries the quoted field and the `|`-joined
tags, and the returned value is the destination path. -/
theorem audit_exportCsv_format_and_path_witness :
    AuditLog.query AuditLog.c7parse [AuditLog.c9entry]
        { AuditLog.defaultQueryOptions with
          limit := some (AuditLog.defaultQueryOptions.limit.getD 1000) } =
      some AuditLog.c9pageW ∧
    AuditLog.exportCsv AuditLog.c7parse [AuditLog.c9entry] AuditLog.defaultQueryOptions
        "2024-02-02T00:00:00.000Z" "data/audit/exports" =
      some { written := String.intercalate "\n"
               (String.intercalate "," AuditLog.csvHeader ::
                 AuditLog.c9pageW.entries.map AuditLog.csvRow),
             returned := "data/audit/exports/audit-export-" ++
               AuditLog.sanitizeTimestamp "2024-02-02T00:00:00.000Z" ++ ".csv" } := by
  have h : AuditLog.query AuditLog.c7parse [AuditLog.c9entry]
      { AuditLog.defaultQueryOptions with
        limit := some (AuditLog.defaultQueryOptions.limit.getD 1000) } =
      some AuditLog.c9pageW := rfl
  exact ⟨h, audit_exportCsv_format_and_path.2.2.2 AuditLog.c7parse [AuditLog.c9entry]
    AuditLog.defaultQueryOptions "2024-02-02T00:00:00.000Z" "data/audit/exports"
    AuditLog.c9pageW h⟩

/-- C9 counterexample: on a concrete call the value `exportCsv` RETURNS is
the destination path `data/audit/exports/audit-export-<timestamp>.csv`, whose
first row is not the fixed CSV header — the CSV string (which does start with
the header) is only written to the export file. -/
theorem audit_exportCsv_returns_path_counterexample :
    AuditLog.c9export = some AuditLog.c9result ∧
    AuditLog.c9result.returned =
      "data/audit/exports/audit-export-2024-01-01T00-00-00-000Z.csv" ∧
    AuditLog.prefixB (String.intercalate "," AuditLog.csvHeader).data
      AuditLog.c9result.returned.data = false ∧
    AuditLog.prefixB (String.intercalate "," AuditLog.csvHeader).data
      AuditLog.c9result.written.data = true :=
  ⟨rfl, rfl, by decide, by decide⟩
